import Mathlib

/-!
Verification development for the resource-allocation optimization engine of
the "po-otimizacaoseguranca" repository (files `otimizacao.py`,
`multi_periodo.py`, `monte_carlo.py`, `sensibilidade.py`).

All numeric computation is embedded over `ℚ`.  The external CBC solver
invoked through PuLP is modelled by an executable canonical solver: the
single-period problem
  max Σ_e mortes_e · elasticidade_e · x_e / orcamento_e
  s.t. Σ_e x_e ≤ B,  inv_min_e ≤ x_e ≤ inv_max_e
is a fractional-knapsack LP, solved here by the greedy fill in
non-increasing order of the objective coefficient; the development proves
below (`fill_optimal`) that this canonical solution attains the LP optimum,
so it is a faithful stand-in for "the solver returned an optimal solution".
Statuses: the LP is always bounded (box constraints), hence the solver
terminates with "Optimal" exactly on feasible instances and "Infeasible"
otherwise.

Python's `round` built-in is modelled by Mathlib's `round` (nearest integer,
`round x = ⌊x + 1/2⌋`); the two differ only on exact ties (Python rounds
half to even), and no statement below depends on tie behaviour.  Python's
`int(·)` conversion truncates toward zero and is modelled by `ratTrunc`.
-/

/-- Truncation toward zero, the model of Python's `int()` applied to a
numeric value. -/
def ratTrunc (q : ℚ) : ℤ :=
  if 0 ≤ q then ⌊q⌋ else ⌈q⌉

/-- Model of Python's `round(x, 2)`: round to two decimal places. -/
def round2 (q : ℚ) : ℚ :=
  (round (q * 100) : ℚ) / 100

/-- Model of Python's `round(x, 4)`: round to four decimal places. -/
def round4 (q : ℚ) : ℚ :=
  (round (q * 10000) : ℚ) / 10000

/-- Model of Python's `round(x, 0)`: round to an integer, kept as a numeric
(float-like) value. -/
def round0 (q : ℚ) : ℚ :=
  (round q : ℚ)

/-- Model of `np.clip(x, lo, hi)`. -/
def npClip (x lo hi : ℚ) : ℚ :=
  min hi (max lo x)

/-- One row of the consolidated input table (`df_dados`).  The three columns
used by the LP may carry missing values (`none` models pandas `NaN`); the
descriptive columns are only carried through merges. -/
structure Row where
  sigla : String
  estado : String
  regiao : String
  populacao : ℚ
  mortes_violentas : Option ℚ
  orcamento_2022_milhoes : Option ℚ
  elasticidade : Option ℚ
deriving DecidableEq

/-- A row is complete when the three LP columns are present; mirrors
`df_dados.dropna(subset=['orcamento_2022_milhoes', 'elasticidade',
'mortes_violentas'])`. -/
def rowComplete (r : Row) : Bool :=
  r.orcamento_2022_milhoes.isSome && r.elasticidade.isSome &&
    r.mortes_violentas.isSome

/-- The filtered table `df` of `otimizar_alocacao` / `otimizar_multi_periodo`
(dropna on the three LP columns, then a defensive copy). -/
def dropnaLP (df : List Row) : List Row :=
  df.filter rowComplete

/-- The per-state parameters extracted from a complete row, together with the
per-state investment bounds `inv_min = orcamento · min_pct / 100` and
`inv_max = orcamento · max_pct / 100`. -/
structure StParams where
  sigla : String
  mortes : ℚ
  orc : ℚ
  elast : ℚ
  inv_min : ℚ
  inv_max : ℚ
deriving DecidableEq

/-- Parameter extraction for one state (lines 96-108 of `otimizacao.py`). -/
def mkParams (minPct maxPct : ℚ) (r : Row) : StParams :=
  let orc := r.orcamento_2022_milhoes.getD 0
  { sigla := r.sigla
    mortes := r.mortes_violentas.getD 0
    orc := orc
    elast := r.elasticidade.getD 0
    inv_min := orc * minPct / 100
    inv_max := orc * maxPct / 100 }

/-- Objective coefficient of a state: the reduction in deaths per unit of
additional investment, `mortes · elasticidade / orcamento`. -/
def coefObj (p : StParams) : ℚ :=
  p.mortes * p.elast / p.orc

/-- States sorted by non-increasing objective coefficient: the processing
order of the canonical solver. -/
def sortByCoef (l : List StParams) : List StParams :=
  l.insertionSort (fun a b => coefObj b ≤ coefObj a)

/-- Feasibility of the single-period LP instance: every box is non-empty and
the mandatory minimums fit in the budget.  (The LP `min_pct`/`max_pct`
bounds and the total-budget constraint admit a point iff this holds.) -/
def instFeasible (l : List StParams) (B : ℚ) : Prop :=
  (∀ p ∈ l, p.inv_min ≤ p.inv_max) ∧ (l.map (·.inv_min)).sum ≤ B

instance (l : List StParams) (B : ℚ) : Decidable (instFeasible l B) := by
  unfold instFeasible; infer_instance

/-- Terminal status of the modelled solver (`LpStatus[modelo.status]`): the
box-constrained LP is bounded, so CBC reports Optimal exactly on feasible
instances. -/
def lpStatusStr (l : List StParams) (B : ℚ) : String :=
  if instFeasible l B then "Optimal" else "Infeasible"

/-- Greedy fill of the surplus budget `r` over a list of states (to be used
in sorted order): each state receives its mandatory minimum plus as much of
the remaining surplus as its box allows. -/
def fill : List StParams → ℚ → List (StParams × ℚ)
  | [], _ => []
  | p :: rest, r =>
      let give := min (p.inv_max - p.inv_min) r
      (p, p.inv_min + give) :: fill rest (r - give)

/-- The canonical optimal solution of the single-period LP: greedy fill of
the surplus `B - Σ inv_min` in non-increasing coefficient order. -/
def greedyAlloc (l : List StParams) (B : ℚ) : List (StParams × ℚ) :=
  fill (sortByCoef l) (B - (l.map (·.inv_min)).sum)

/-- Look up the solved investment of one state by its code, mirroring
`value(x[e])`. -/
def allocValue (alloc : List (StParams × ℚ)) (sig : String) : ℚ :=
  ((alloc.find? (fun pr => pr.1.sigla == sig)).map (·.2)).getD 0

example : round2 (7/1000) = 1/100 := by norm_num [round2, round_eq]
example : ratTrunc (479/5) = 95 := by norm_num [ratTrunc]
example : round (479/5 : ℚ) = 96 := by norm_num [round_eq]
example : npClip (1/2) (1/100) (3/10) = 3/10 := by norm_num [npClip]

/-! ### Properties of the canonical solver -/

/-- The fill keeps the states, in order. -/
lemma fill_map_fst (l : List StParams) (r : ℚ) : (fill l r).map Prod.fst = l := by
  induction l generalizing r with
  | nil => rfl
  | cons p rest ih => simp [fill, ih]

/-- Every filled value respects its box, provided boxes are non-empty and the
surplus is non-negative. -/
lemma fill_bounds (l : List StParams) (r : ℚ)
    (hc : ∀ p ∈ l, p.inv_min ≤ p.inv_max) (hr : 0 ≤ r) :
    ∀ pr ∈ fill l r, pr.1.inv_min ≤ pr.2 ∧ pr.2 ≤ pr.1.inv_max := by
  induction l generalizing r with
  | nil => intro pr h; simp [fill] at h
  | cons p rest ih =>
    intro pr hpr
    have hple : p.inv_min ≤ p.inv_max := hc p (by simp)
    have hcr : ∀ q ∈ rest, q.inv_min ≤ q.inv_max := fun q hq => hc q (by simp [hq])
    have hg0 : 0 ≤ min (p.inv_max - p.inv_min) r := le_min (by linarith) hr
    have hgc : min (p.inv_max - p.inv_min) r ≤ p.inv_max - p.inv_min := min_le_left _ _
    have hgr : min (p.inv_max - p.inv_min) r ≤ r := min_le_right _ _
    simp only [fill, List.mem_cons] at hpr
    rcases hpr with h | h
    · subst h
      refine ⟨?_, ?_⟩ <;> dsimp only <;> linarith
    · exact ih (r - min (p.inv_max - p.inv_min) r) hcr (by linarith) pr h

/-- Sum of two pointwise maps. -/
lemma sum_map_add {α : Type} (l : List α) (f g : α → ℚ) :
    (l.map (fun x => f x + g x)).sum = (l.map f).sum + (l.map g).sum := by
  induction l with
  | nil => simp
  | cons a t ih => simp [ih]; ring

/-- Prefix sums of the surplus handed out by the fill: the first `k` states
receive exactly `min (capacity of the first k states) r`. -/
lemma fill_take_surplus (l : List StParams) (r : ℚ)
    (hc : ∀ p ∈ l, p.inv_min ≤ p.inv_max) (hr : 0 ≤ r) (k : ℕ) :
    (((fill l r).take k).map (fun pr => pr.2 - pr.1.inv_min)).sum =
      min (((l.take k).map (fun p => p.inv_max - p.inv_min)).sum) r := by
  induction l generalizing r k with
  | nil => cases k <;> simp [fill, min_eq_left hr]
  | cons p rest ih =>
    cases k with
    | zero => simp [min_eq_left hr]
    | succ k =>
      have hple : p.inv_min ≤ p.inv_max := hc p (by simp)
      have hcr : ∀ q ∈ rest, q.inv_min ≤ q.inv_max := fun q hq => hc q (by simp [hq])
      have hcap0 : 0 ≤ p.inv_max - p.inv_min := by linarith
      have hcaps : 0 ≤ ((rest.take k).map (fun q => q.inv_max - q.inv_min)).sum := by
        apply List.sum_nonneg
        intro x hx
        simp only [List.mem_map] at hx
        obtain ⟨q, hq, rfl⟩ := hx
        have := hcr q (List.mem_of_mem_take hq)
        linarith
      rcases le_total (p.inv_max - p.inv_min) r with hle | hle
      · have hgive : min (p.inv_max - p.inv_min) r = p.inv_max - p.inv_min :=
          min_eq_left hle
        have hI := ih (r - (p.inv_max - p.inv_min)) hcr (by linarith) k
        simp only [fill, hgive, List.take_succ_cons, List.map_cons, List.sum_cons, hI]
        rcases le_total (((rest.take k).map (fun q => q.inv_max - q.inv_min)).sum)
            (r - (p.inv_max - p.inv_min)) with h2 | h2
        · rw [min_eq_left h2, min_eq_left (by linarith)]
          ring
        · rw [min_eq_right h2, min_eq_right (by linarith)]
          ring
      · have hgive : min (p.inv_max - p.inv_min) r = r := min_eq_right hle
        have hI := ih 0 hcr le_rfl k
        simp only [fill, hgive, sub_self, List.take_succ_cons, List.map_cons,
          List.sum_cons, hI]
        rw [min_eq_right hcaps, min_eq_right (by linarith)]
        ring

/-- Total surplus handed out by the fill. -/
lemma fill_surplus_sum (l : List StParams) (r : ℚ)
    (hc : ∀ p ∈ l, p.inv_min ≤ p.inv_max) (hr : 0 ≤ r) :
    ((fill l r).map (fun pr => pr.2 - pr.1.inv_min)).sum =
      min ((l.map (fun p => p.inv_max - p.inv_min)).sum) r := by
  have h := fill_take_surplus l r hc hr (fill l r).length
  have hlen : (fill l r).length = l.length := by
    have := congrArg List.length (fill_map_fst l r)
    simpa using this
  rw [List.take_length] at h
  rw [hlen, List.take_length] at h
  exact h

/-- The total invested by the fill equals mandatory minimums plus the
distributed surplus; in particular it never exceeds `Σ inv_min + r`. -/
lemma fill_sum (l : List StParams) (r : ℚ)
    (hc : ∀ p ∈ l, p.inv_min ≤ p.inv_max) (hr : 0 ≤ r) :
    ((fill l r).map (·.2)).sum =
      (l.map (·.inv_min)).sum + min ((l.map (fun p => p.inv_max - p.inv_min)).sum) r := by
  have h1 := fill_surplus_sum l r hc hr
  have h2 : ((fill l r).map (·.2)).sum =
      ((fill l r).map (fun pr => pr.2 - pr.1.inv_min)).sum +
        ((fill l r).map (fun pr => pr.1.inv_min)).sum := by
    rw [← sum_map_add]
    congr 1
    apply List.map_congr_left
    intro pr _
    ring
  have h3 : ((fill l r).map (fun pr => pr.1.inv_min)).sum = (l.map (·.inv_min)).sum := by
    have : (fill l r).map (fun pr => pr.1.inv_min) =
        ((fill l r).map Prod.fst).map (·.inv_min) := by
      rw [List.map_map]; rfl
    rw [this, fill_map_fst]
  rw [h2, h1, h3]; ring

/-- The fill never spends more than `Σ inv_min + r`. -/
lemma fill_sum_le (l : List StParams) (r : ℚ)
    (hc : ∀ p ∈ l, p.inv_min ≤ p.inv_max) (hr : 0 ≤ r) :
    ((fill l r).map (·.2)).sum ≤ (l.map (·.inv_min)).sum + r := by
  rw [fill_sum l r hc hr]
  have := min_le_right ((l.map (fun p => p.inv_max - p.inv_min)).sum) r
  linarith

/-- Pointwise monotonicity of the fill in the surplus budget. -/
lemma fill_mono (l : List StParams) (r₁ r₂ : ℚ) (h0 : 0 ≤ r₁) (h12 : r₁ ≤ r₂) :
    List.Forall₂ (fun a b => a.1 = b.1 ∧ a.2 ≤ b.2) (fill l r₁) (fill l r₂) := by
  induction l generalizing r₁ r₂ with
  | nil => simp [fill]
  | cons p rest ih =>
    simp only [fill]
    have hmm : min (p.inv_max - p.inv_min) r₁ ≤ min (p.inv_max - p.inv_min) r₂ :=
      min_le_min le_rfl h12
    constructor
    · exact ⟨rfl, by dsimp only; linarith⟩
    · apply ih
      · have := min_le_right (p.inv_max - p.inv_min) r₁
        linarith
      · rcases le_total (p.inv_max - p.inv_min) r₁ with h | h
        · rw [min_eq_left h, min_eq_left (by linarith)]
          linarith
        · rw [min_eq_right h]
          have := min_le_right (p.inv_max - p.inv_min) r₂
          linarith

/-- A feasible allocation pays at least the mandatory minimums. -/
lemma forall2_bounds_min_le_sum (l : List StParams) (y : List ℚ)
    (h : List.Forall₂ (fun p v => p.inv_min ≤ v ∧ v ≤ p.inv_max) l y) :
    (l.map (·.inv_min)).sum ≤ y.sum := by
  induction h with
  | nil => simp
  | cons hpv _ ih =>
    simp only [List.map_cons, List.sum_cons]
    exact add_le_add hpv.1 ih

/-- Strengthened exchange argument for optimality of the greedy fill.
`slack` is the budget surplus a competitor may still draw on beyond the
greedy remainder; `C` bounds every objective coefficient in sight. -/
lemma fill_optimal_aux :
    ∀ (l : List StParams) (r : ℚ) (y : List ℚ) (C slack : ℚ),
      0 ≤ C → 0 ≤ slack →
      (∀ p ∈ l, p.inv_min ≤ p.inv_max) → 0 ≤ r →
      (∀ p ∈ l, 0 ≤ coefObj p ∧ coefObj p ≤ C) →
      l.Pairwise (fun a b => coefObj b ≤ coefObj a) →
      List.Forall₂ (fun p v => p.inv_min ≤ v ∧ v ≤ p.inv_max) l y →
      y.sum ≤ (l.map (·.inv_min)).sum + r + slack →
      ((l.zip y).map (fun pv => coefObj pv.1 * pv.2)).sum ≤
        ((fill l r).map (fun pr => coefObj pr.1 * pr.2)).sum + C * slack := by
  intro l
  induction l with
  | nil =>
    intro r y C slack hC hs _ _ _ _ hb _
    cases hb
    simp [fill]
    positivity
  | cons p rest ih =>
    intro r y C slack hC hs hc hr hcoef hpw hb hbud
    rcases hb with _ | ⟨⟨hy0min, hy0max⟩, hbrest⟩
    rename_i y0 yrest
    have hple : p.inv_min ≤ p.inv_max := hc p (by simp)
    have hcr : ∀ q ∈ rest, q.inv_min ≤ q.inv_max := fun q hq => hc q (by simp [hq])
    have hcoefrest : ∀ q ∈ rest, 0 ≤ coefObj q ∧ coefObj q ≤ coefObj p := by
      intro q hq
      exact ⟨(hcoef q (by simp [hq])).1, (List.pairwise_cons.mp hpw).1 q hq⟩
    have hpwrest : rest.Pairwise (fun a b => coefObj b ≤ coefObj a) :=
      (List.pairwise_cons.mp hpw).2
    have hcoef0 : 0 ≤ coefObj p ∧ coefObj p ≤ C := hcoef p (by simp)
    -- the competitor cannot put more on the head state than greedy plus slack
    have hrest_min_le : (rest.map (·.inv_min)).sum ≤ yrest.sum :=
      forall2_bounds_min_le_sum rest yrest hbrest
    have hy0le : y0 - p.inv_min ≤ min (p.inv_max - p.inv_min) r + slack := by
      have h1 : y0 - p.inv_min ≤ p.inv_max - p.inv_min := by linarith
      have h2 : y0 - p.inv_min ≤ r + slack := by
        have := hbud
        simp only [List.sum_cons, List.map_cons] at this
        linarith
      rcases le_total (p.inv_max - p.inv_min) r with h | h
      · rw [min_eq_left h]; linarith
      · rw [min_eq_right h]; linarith
    have hg0 : 0 ≤ min (p.inv_max - p.inv_min) r := le_min (by linarith) hr
    have hgr : min (p.inv_max - p.inv_min) r ≤ r := min_le_right _ _
    -- remaining surplus and slack for the tail
    have hslack' : 0 ≤ slack + min (p.inv_max - p.inv_min) r - (y0 - p.inv_min) := by
      linarith
    have hbud' : yrest.sum ≤ (rest.map (·.inv_min)).sum +
        (r - min (p.inv_max - p.inv_min) r) +
        (slack + min (p.inv_max - p.inv_min) r - (y0 - p.inv_min)) := by
      have := hbud
      simp only [List.sum_cons, List.map_cons] at this
      linarith
    have ihr := ih (r - min (p.inv_max - p.inv_min) r) yrest (coefObj p)
      (slack + min (p.inv_max - p.inv_min) r - (y0 - p.inv_min))
      hcoef0.1 hslack' hcr (by linarith) hcoefrest hpwrest hbrest hbud'
    simp only [fill, List.zip_cons_cons, List.map_cons, List.sum_cons]
    have hmul : coefObj p * slack ≤ C * slack :=
      mul_le_mul_of_nonneg_right hcoef0.2 hs
    have hexp : coefObj p *
        (slack + min (p.inv_max - p.inv_min) r - (y0 - p.inv_min)) =
        coefObj p * slack + coefObj p * min (p.inv_max - p.inv_min) r -
          coefObj p * y0 + coefObj p * p.inv_min := by ring
    have hgoal : coefObj p * y0 +
        ((rest.zip yrest).map (fun pv => coefObj pv.1 * pv.2)).sum ≤
        coefObj p * (p.inv_min + min (p.inv_max - p.inv_min) r) +
        ((fill rest (r - min (p.inv_max - p.inv_min) r)).map
          (fun pr => coefObj pr.1 * pr.2)).sum + C * slack := by
      have h1 := ihr
      rw [hexp] at h1
      linarith
    exact hgoal

/-- Optimality of the canonical solution: on a list sorted by non-increasing
(non-negative) objective coefficient, no feasible allocation achieves a
larger objective than the greedy fill. -/
theorem fill_optimal (l : List StParams) (r : ℚ) (y : List ℚ)
    (hc : ∀ p ∈ l, p.inv_min ≤ p.inv_max) (hr : 0 ≤ r)
    (hcoef : ∀ p ∈ l, 0 ≤ coefObj p)
    (hsorted : l.Pairwise (fun a b => coefObj b ≤ coefObj a))
    (hbounds : List.Forall₂ (fun p v => p.inv_min ≤ v ∧ v ≤ p.inv_max) l y)
    (hbudget : y.sum ≤ (l.map (·.inv_min)).sum + r) :
    ((l.zip y).map (fun pv => coefObj pv.1 * pv.2)).sum ≤
      ((fill l r).map (fun pr => coefObj pr.1 * pr.2)).sum := by
  cases l with
  | nil =>
    cases hbounds
    simp [fill]
  | cons p rest =>
    have hCbound : ∀ q ∈ p :: rest, 0 ≤ coefObj q ∧ coefObj q ≤ coefObj p := by
      intro q hq
      rcases List.mem_cons.mp hq with h | h
      · subst h; exact ⟨hcoef q (by simp), le_rfl⟩
      · exact ⟨hcoef q (by simp [h]), (List.pairwise_cons.mp hsorted).1 q h⟩
    have := fill_optimal_aux (p :: rest) r y (coefObj p) 0
      (hcoef p (by simp)) le_rfl hc hr hCbound hsorted hbounds (by linarith)
    simpa using this

instance : IsTotal StParams (fun a b => coefObj b ≤ coefObj a) :=
  ⟨fun a b => le_total (coefObj b) (coefObj a)⟩

instance : IsTrans StParams (fun a b => coefObj b ≤ coefObj a) :=
  ⟨fun _ _ _ hab hbc => le_trans hbc hab⟩

/-- The solver's processing order is sorted by non-increasing coefficient. -/
lemma sortByCoef_pairwise (l : List StParams) :
    (sortByCoef l).Pairwise (fun a b => coefObj b ≤ coefObj a) :=
  List.sorted_insertionSort _ l

/-- Sorting permutes the states. -/
lemma sortByCoef_perm (l : List StParams) : (sortByCoef l).Perm l :=
  List.perm_insertionSort _ l

/-! ### The single-period allocation model (`otimizar_alocacao`) -/

/-- One entry of `alocacao_lista` (lines 217-224 of `otimizacao.py`),
before the merge with the descriptive columns. -/
structure AlocPre where
  sigla : String
  investimento_milhoes : ℚ
  mortes_antes : ℤ
  mortes_depois : ℤ
  reducao_mortes : ℤ
  reducao_percentual : ℚ
deriving DecidableEq

/-- Loop body of the result extraction (lines 209-224): note the deliberate
absence of any clamping of `mortes_depois` at zero. -/
def mkAlocPre (p : StParams) (investimento : ℚ) : AlocPre :=
  let reducao := p.mortes * p.elast * investimento / p.orc
  let crimes_depois := p.mortes - reducao
  { sigla := p.sigla
    investimento_milhoes := round2 investimento
    mortes_antes := ratTrunc p.mortes
    mortes_depois := round crimes_depois
    reducao_mortes := round reducao
    reducao_percentual :=
      if 0 < p.mortes then round2 (reducao / p.mortes * 100) else 0 }

/-- A row of the merged allocation table `df_alocacao` (lines 229-234): the
computed columns plus the descriptive columns brought in by the left merge
on `sigla` (absent on no match, as pandas fills NaN). -/
structure AlocRow where
  sigla : String
  investimento_milhoes : ℚ
  mortes_antes : ℤ
  mortes_depois : ℤ
  reducao_mortes : ℤ
  reducao_percentual : ℚ
  estado : Option String
  regiao : Option String
  populacao : Option ℚ
  orcamento_2022_milhoes : Option ℚ
  elasticidade : Option ℚ
deriving DecidableEq

/-- Join one allocation entry with a matching input row. -/
def joinRow (a : AlocPre) (r : Row) : AlocRow :=
  { sigla := a.sigla
    investimento_milhoes := a.investimento_milhoes
    mortes_antes := a.mortes_antes
    mortes_depois := a.mortes_depois
    reducao_mortes := a.reducao_mortes
    reducao_percentual := a.reducao_percentual
    estado := some r.estado
    regiao := some r.regiao
    populacao := some r.populacao
    orcamento_2022_milhoes := r.orcamento_2022_milhoes
    elasticidade := r.elasticidade }

/-- Join with no matching input row (left merge fills the right-hand columns
with missing values). -/
def joinNoMatch (a : AlocPre) : AlocRow :=
  { sigla := a.sigla
    investimento_milhoes := a.investimento_milhoes
    mortes_antes := a.mortes_antes
    mortes_depois := a.mortes_depois
    reducao_mortes := a.reducao_mortes
    reducao_percentual := a.reducao_percentual
    estado := none
    regiao := none
    populacao := none
    orcamento_2022_milhoes := none
    elasticidade := none }

/-- Model of `pd.merge(df_alocacao, df[...], on='sigla', how='left')`
(lines 229-234).  pandas infers the columns of `pd.DataFrame(records)` from
the record keys, so a frame built from an empty record list has *no*
columns, and `pd.merge` then raises `KeyError` because the key column
`sigla` is absent from the left frame.  On a non-empty left frame the merge
emits, for each left row in order, one joined row per matching right row
(or a single NaN-filled row when nothing matches). -/
def pdMergeAlocacao (left : List AlocPre) (right : List Row) :
    Except String (List AlocRow) :=
  if left.isEmpty then
    .error "KeyError: sigla"
  else
    .ok (left.flatMap (fun a =>
      let ms := right.filter (fun r => r.sigla == a.sigla)
      if ms.isEmpty then [joinNoMatch a] else ms.map (joinRow a)))

/-- The result envelope of `otimizar_alocacao` (dataclass
`ResultadoOtimizacao`). -/
structure ResultadoOtimizacao where
  status : String
  orcamento_usado : ℚ
  reducao_crimes : ℤ
  reducao_percentual : ℚ
  alocacao : List AlocRow
  fo_valor : ℚ
deriving DecidableEq

/-- The single-period LP allocation (`otimizar_alocacao`, `otimizacao.py`):
drop incomplete rows, extract per-state parameters and investment bounds,
solve the LP (modelled by the provably optimal greedy fill), and extract
the result envelope.  A Python exception is modelled by `Except.error`. -/
def otimizar_alocacao (df_dados : List Row) (orcamento_disponivel : ℚ)
    (investimento_minimo_pct investimento_maximo_pct : ℚ) :
    Except String ResultadoOtimizacao :=
  let df := dropnaLP df_dados
  let params := df.map (mkParams investimento_minimo_pct investimento_maximo_pct)
  if instFeasible params orcamento_disponivel then
    let alloc := greedyAlloc params orcamento_disponivel
    let alocacao_lista := params.map (fun p => mkAlocPre p (allocValue alloc p.sigla))
    match pdMergeAlocacao alocacao_lista df with
    | .error e => .error e
    | .ok df_alocacao =>
      let reducao_total : ℤ := (df_alocacao.map (·.reducao_mortes)).sum
      let mortes_antes_total : ℤ := (df_alocacao.map (·.mortes_antes)).sum
      let reducao_pct_total : ℚ :=
        if 0 < mortes_antes_total then
          (reducao_total : ℚ) / (mortes_antes_total : ℚ) * 100
        else 0
      .ok { status := "Optimal"
            orcamento_usado := round2 ((df_alocacao.map (·.investimento_milhoes)).sum)
            reducao_crimes := reducao_total
            reducao_percentual := round2 reducao_pct_total
            alocacao := df_alocacao
            fo_valor := round4 (-((alloc.map (fun pr => coefObj pr.1 * pr.2)).sum)) }
  else
    .ok { status := lpStatusStr params orcamento_disponivel
          orcamento_usado := 0
          reducao_crimes := 0
          reducao_percentual := 0
          alocacao := []
          fo_valor := 0 }

/-! ### The multi-period model (`multi_periodo.py`) -/

/-- Accumulated investment stock of one state up to period `t` (lines
184-191 of `multi_periodo.py`): each earlier investment enters with the
geometric depreciation weight `(1 - depreciacao)^(elapsed periods)`.  The
symbolic LP stock of lines 112-118 is the same linear combination, built
by the recurrence proved in the theorem for claim C9. -/
def estoque_acum (inv : ℕ → ℚ) (dep : ℚ) (t : ℕ) : ℚ :=
  ∑ s ∈ Finset.range t, inv (s + 1) * (1 - dep) ^ (t - (s + 1))

/-- Feasibility of the multi-period LP: non-empty boxes and, for every
period, the mandatory minimums fit in that period's budget. -/
def multiFeasible (l : List StParams) (orcs : List ℚ) : Prop :=
  (∀ p ∈ l, p.inv_min ≤ p.inv_max) ∧ ∀ B ∈ orcs, (l.map (·.inv_min)).sum ≤ B

instance (l : List StParams) (orcs : List ℚ) : Decidable (multiFeasible l orcs) := by
  unfold multiFeasible; infer_instance

/-- Terminal status of the modelled solver on the multi-period LP. -/
def multiStatusStr (l : List StParams) (orcs : List ℚ) : String :=
  if multiFeasible l orcs then "Optimal" else "Infeasible"

/-- Canonical optimal solution of the multi-period LP.  The objective weight
of `x[e,t]` is `coefObj e · Σ_{u=t..T} (1-dep)^(u-t)`, a per-period positive
multiple of the single-period coefficient, and the constraints are separable
by period, so each period is the same fractional knapsack solved by the
greedy fill on that period's budget. -/
def multiInvest (params : List StParams) (orcs : List ℚ) (t : ℕ) (sig : String) : ℚ :=
  allocValue (greedyAlloc params (orcs.getD (t - 1) 0)) sig

/-- Stock of one state at period `t` under the solved investments. -/
def multiEstoque (params : List StParams) (orcs : List ℚ) (dep : ℚ)
    (p : StParams) (t : ℕ) : ℚ :=
  estoque_acum (fun s => multiInvest params orcs s p.sigla) dep t

/-- Reduction of one state at period `t` (line 195 of `multi_periodo.py`). -/
def multiReducao (params : List StParams) (orcs : List ℚ) (dep : ℚ)
    (p : StParams) (t : ℕ) : ℚ :=
  p.mortes * p.elast * multiEstoque params orcs dep p t / p.orc

/-- One entry of the per-period `alocacao_lista` (lines 198-206): note the
flooring of `crimes_apos` at zero, present here but not in the
single-period extraction. -/
structure MAlocPre where
  sigla : String
  periodo : ℕ
  investimento : ℚ
  estoque_acumulado : ℚ
  crimes_base : ℚ
  crimes_apos : ℚ
  reducao : ℚ
deriving DecidableEq

/-- Loop body of the multi-period extraction for state `p`, period `t`. -/
def mkMAlocPre (params : List StParams) (orcs : List ℚ) (dep : ℚ)
    (p : StParams) (t : ℕ) : MAlocPre :=
  { sigla := p.sigla
    periodo := t
    investimento := round2 (multiInvest params orcs t p.sigla)
    estoque_acumulado := round2 (multiEstoque params orcs dep p t)
    crimes_base := p.mortes
    crimes_apos := round0 (max 0 (p.mortes - multiReducao params orcs dep p t))
    reducao := round0 (multiReducao params orcs dep p t) }

/-- A merged row of one period's allocation table (inner merge with
`df[['sigla', 'estado', 'regiao']]`, line 214). -/
structure MAlocRow where
  sigla : String
  periodo : ℕ
  investimento : ℚ
  estoque_acumulado : ℚ
  crimes_base : ℚ
  crimes_apos : ℚ
  reducao : ℚ
  estado : String
  regiao : String
deriving DecidableEq

/-- Join of a per-period entry with a matching input row. -/
def joinMRow (a : MAlocPre) (r : Row) : MAlocRow :=
  { sigla := a.sigla
    periodo := a.periodo
    investimento := a.investimento
    estoque_acumulado := a.estoque_acumulado
    crimes_base := a.crimes_base
    crimes_apos := a.crimes_apos
    reducao := a.reducao
    estado := r.estado
    regiao := r.regiao }

/-- Model of `pd.merge(df_periodo, df[['sigla', 'estado', 'regiao']],
on='sigla')` (default inner join).  As in `pdMergeAlocacao`, a left frame
built from an empty record list has no columns and the merge raises
`KeyError`. -/
def pdMergeMulti (left : List MAlocPre) (right : List Row) :
    Except String (List MAlocRow) :=
  if left.isEmpty then
    .error "KeyError: sigla"
  else
    .ok (left.flatMap (fun a =>
      (right.filter (fun r => r.sigla == a.sigla)).map (joinMRow a)))

/-- One row of the aggregate trajectory table (lines 225-232). -/
structure TrajRow where
  periodo : ℕ
  orcamento_periodo : ℚ
  investimento_total : ℚ
  crimes_base : ℚ
  crimes_apos : ℚ
  reducao_acumulada : ℚ
deriving DecidableEq

/-- The result envelope of `otimizar_multi_periodo` (dataclass
`ResultadoMultiPeriodo`); the per-period dictionaries are association
lists keyed by the 1-based period index. -/
structure ResultadoMultiPeriodo where
  status : String
  n_periodos : ℕ
  orcamento_total_usado : ℚ
  reducao_total_crimes : ℚ
  alocacao_por_periodo : List (ℕ × List MAlocRow)
  reducao_por_periodo : List (ℕ × ℚ)
  trajetoria_crimes : List TrajRow
deriving DecidableEq

/-- Sequential effectful map: apply `f` left to right, stopping at the
first error — a Python loop in which any raised exception propagates. -/
def exceptMap {α β : Type} (f : α → Except String β) : List α → Except String (List β)
  | [] => .ok []
  | a :: l =>
    match f a with
    | .error e => .error e
    | .ok b =>
      match exceptMap f l with
      | .error e => .error e
      | .ok bs => .ok (b :: bs)

/-- Every output of a successful `exceptMap` comes from some input. -/
lemma exceptMap_ok_mem {α β : Type} (f : α → Except String β) (l : List α)
    (ys : List β) (h : exceptMap f l = .ok ys) :
    ∀ y ∈ ys, ∃ x ∈ l, f x = .ok y := by
  induction l generalizing ys with
  | nil =>
    simp only [exceptMap] at h
    injection h with h'
    subst h'
    intro y hy
    cases hy
  | cons a t ih =>
    simp only [exceptMap] at h
    cases hfa : f a with
    | error e => rw [hfa] at h; cases h
    | ok b =>
      rw [hfa] at h
      cases hft : exceptMap f t with
      | error e => rw [hft] at h; cases h
      | ok bs =>
        rw [hft] at h
        injection h with h'
        subst h'
        intro y hy
        rcases List.mem_cons.mp hy with rfl | hmem
        · exact ⟨a, by simp, hfa⟩
        · obtain ⟨x, hx, hfx⟩ := ih bs hft y hmem
          exact ⟨x, by simp [hx], hfx⟩

/-- Total reduction achieved in period `t` (accumulated over states before
the merge, line 208). -/
def multiReducaoPeriodo (params : List StParams) (orcs : List ℚ) (dep : ℚ)
    (t : ℕ) : ℚ :=
  (params.map (fun p => multiReducao params orcs dep p t)).sum

/-- The multi-period allocation (`otimizar_multi_periodo`,
`multi_periodo.py`).  The unused `fator_acumulacao` parameter of the source
is omitted (it does not occur in the function body). -/
def otimizar_multi_periodo (df_dados : List Row) (orcamentos_por_periodo : List ℚ)
    (depreciacao_anual investimento_min_pct investimento_max_pct : ℚ) :
    Except String ResultadoMultiPeriodo :=
  let df := dropnaLP df_dados
  let params := df.map (mkParams investimento_min_pct investimento_max_pct)
  let n_periodos := orcamentos_por_periodo.length
  if multiFeasible params orcamentos_por_periodo then
    match exceptMap (fun ti =>
        let t := ti + 1
        let pre := params.map (fun p =>
          mkMAlocPre params orcamentos_por_periodo depreciacao_anual p t)
        (pdMergeMulti pre df).map (fun merged => (t, merged)))
      (List.range n_periodos) with
    | .error e => .error e
    | .ok merges =>
      let reducao_por_periodo := (List.range n_periodos).map (fun ti =>
        (ti + 1, round0 (multiReducaoPeriodo params orcamentos_por_periodo
          depreciacao_anual (ti + 1))))
      let orcamento_total := ((List.range n_periodos).map (fun ti =>
        (params.map (fun p =>
          multiInvest params orcamentos_por_periodo (ti + 1) p.sigla)).sum)).sum
      let reducao_total := ((List.range n_periodos).map (fun ti =>
        multiReducaoPeriodo params orcamentos_por_periodo depreciacao_anual
          (ti + 1))).sum
      let trajetoria := merges.map (fun tm =>
        { periodo := tm.1
          orcamento_periodo := orcamentos_por_periodo.getD (tm.1 - 1) 0
          investimento_total := (tm.2.map (·.investimento)).sum
          crimes_base := (tm.2.map (·.crimes_base)).sum
          crimes_apos := (tm.2.map (·.crimes_apos)).sum
          reducao_acumulada := multiReducaoPeriodo params orcamentos_por_periodo
            depreciacao_anual tm.1 })
      .ok { status := "Optimal"
            n_periodos := n_periodos
            orcamento_total_usado := round2 orcamento_total
            reducao_total_crimes := round0 reducao_total
            alocacao_por_periodo := merges
            reducao_por_periodo := reducao_por_periodo
            trajetoria_crimes := trajetoria }
  else
    .ok { status := multiStatusStr params orcamentos_por_periodo
          n_periodos := n_periodos
          orcamento_total_usado := 0
          reducao_total_crimes := 0
          alocacao_por_periodo := []
          reducao_por_periodo := []
          trajetoria_crimes := [] }

/-- The four canonical disbursement shapes before normalization (lines
271-279 of `multi_periodo.py`), in the insertion order of the Python
dictionary. -/
def estrategiasRaw (orcamento_total : ℚ) (n_periodos : ℕ) :
    List (String × List ℚ) :=
  let media := orcamento_total / (n_periodos : ℚ)
  [("Uniforme", List.replicate n_periodos media),
   ("Frontloaded", (List.range n_periodos).map (fun t =>
      media * (1 + (1/2) * ((n_periodos : ℚ) - (t : ℚ)) / (n_periodos : ℚ)))),
   ("Backloaded", (List.range n_periodos).map (fun t =>
      media * (1 + (1/2) * (t : ℚ) / (n_periodos : ℚ)))),
   ("Crescente_Linear", (List.range n_periodos).map (fun t =>
      media * ((1/2) + (t : ℚ) / (n_periodos : ℚ))))]

/-- Normalization of a shape so that it sums to the total budget (lines
282-284). -/
def normalizeEstrategia (orcamento_total : ℚ) (orcs : List ℚ) : List ℚ :=
  orcs.map (fun x => x * orcamento_total / orcs.sum)

/-- Dictionary access on the per-period reduction map. -/
def dictGet (l : List (ℕ × ℚ)) (k : ℕ) : ℚ :=
  ((l.find? (fun kv => kv.1 == k)).map (·.2)).getD 0

/-- One row of the strategy comparison table (lines 292-300). -/
structure CompRow where
  estrategia : String
  orcamento_total : ℚ
  n_periodos : ℕ
  reducao_total : ℚ
  reducao_primeiro_periodo : ℚ
  reducao_ultimo_periodo : ℚ
  distribuicao : List ℚ
deriving DecidableEq

/-- Strategy comparison (`comparar_estrategias`, lines 247-302): solve the
multi-period LP once per normalized shape with the default parameters
(`depreciacao_anual = 0.1`, bounds 0/30), and record a row only for solves
whose status is Optimal: non-Optimal shapes are skipped. -/
def comparar_estrategias (df_dados : List Row) (orcamento_total : ℚ)
    (n_periodos : ℕ) : Except String (List CompRow) :=
  match exceptMap (fun pair =>
      let orcs := normalizeEstrategia orcamento_total pair.2
      (otimizar_multi_periodo df_dados orcs (1/10) 0 30).map (fun res =>
        if res.status = "Optimal" then
          some { estrategia := pair.1
                 orcamento_total := orcamento_total
                 n_periodos := n_periodos
                 reducao_total := res.reducao_total_crimes
                 reducao_primeiro_periodo := dictGet res.reducao_por_periodo 1
                 reducao_ultimo_periodo := dictGet res.reducao_por_periodo n_periodos
                 distribuicao := orcs.map round0 }
        else none)) (estrategiasRaw orcamento_total n_periodos) with
  | .error e => .error e
  | .ok rows => .ok (rows.filterMap id)

/-! ### Sensitivity (`sensibilidade.py`) -/

/-- Shadow price of the total-budget constraint (`calcular_shadow_prices`,
lines 184-198 of `sensibilidade.py`): re-solve the LP at the base budget
and at `orcamento ± delta` (with the default bounds 0/50), and return the
central finite difference of the achieved reductions, rounded to four
decimals — the `orcamento_total` entry of the returned dictionary.  (The
remaining dictionary entries are a display string and per-state
binding-flag markers, not referenced by any claim.) -/
def calcular_shadow_prices (df_dados : List Row) (orcamento delta : ℚ) :
    Except String ℚ :=
  match otimizar_alocacao df_dados orcamento 0 50 with
  | .error e => .error e
  | .ok _resultado_base =>
    match otimizar_alocacao df_dados (orcamento + delta) 0 50 with
    | .error e => .error e
    | .ok resultado_mais =>
      match otimizar_alocacao df_dados (orcamento - delta) 0 50 with
      | .error e => .error e
      | .ok resultado_menos =>
        .ok (round4 (((resultado_mais.reducao_crimes : ℚ) -
          (resultado_menos.reducao_crimes : ℚ)) / (2 * delta)))

/-! ### Monte Carlo (`monte_carlo.py`)

numpy's global pseudo-random stream is modelled by an explicit state of
type `RNG`, threaded through every sampling call exactly as the Python
global state is mutated.  `stdNormalSample` is a fixed deterministic
stand-in for one standard-normal draw of the stream: the claims below
concern seeding, threading and the post-processing of samples, none of
which depends on the numeric law of the sampler. -/

/-- The state of numpy's global random generator. -/
abbrev RNG := ℕ

/-- Model of `np.random.seed(n)`. -/
def npSeed (n : ℕ) : RNG := n

/-- One standard-normal draw from the modelled stream (values in
`[-1, 4/5]` in steps of `1/5`). -/
def stdNormalSample (g : RNG) : ℚ :=
  ((g % 10 : ℕ) : ℚ) / 5 - 1

/-- Model of `np.random.normal(mu, sigma)`: one draw plus the advanced
state. -/
def npNormal (mu sigma : ℚ) (g : RNG) : ℚ × RNG :=
  (mu + sigma * stdNormalSample g, g + 1)

/-- Elasticity perturbation of one state (lines 77-83 of `monte_carlo.py`):
a Normal draw centred at the recorded value with standard deviation
`value * cv`, clipped to `[0.01, 0.30]`. -/
def perturbaElast (base cv : ℚ) (g : RNG) : ℚ × RNG :=
  let s := npNormal base (base * cv) g
  (npClip s.1 (1/100) (3/10), s.2)

/-- Death-count perturbation of one state (lines 88-94):
`max(1, int(np.random.normal(base, base * cv)))` — note the truncating
`int(·)` conversion applied before the floor at 1. -/
def perturbaMortes (base cv : ℚ) (g : RNG) : ℚ × RNG :=
  let s := npNormal base (base * cv) g
  (((max 1 (ratTrunc s.1) : ℤ) : ℚ), s.2)

/-- First pass of `simular_parametros` (lines 75-83): perturb the
elasticity of every row that has one, in table order. -/
def elastPass (cv : ℚ) : List Row → RNG → List Row × RNG
  | [], g => ([], g)
  | r :: rest, g =>
    match r.elasticidade with
    | some v =>
        let nv := perturbaElast v cv g
        let tail := elastPass cv rest nv.2
        ({ r with elasticidade := some nv.1 } :: tail.1, tail.2)
    | none =>
        let tail := elastPass cv rest g
        (r :: tail.1, tail.2)

/-- Second pass of `simular_parametros` (lines 86-94): perturb the death
count of every row that has one, in table order. -/
def mortesPass (cv : ℚ) : List Row → RNG → List Row × RNG
  | [], g => ([], g)
  | r :: rest, g =>
    match r.mortes_violentas with
    | some v =>
        let nv := perturbaMortes v cv g
        let tail := mortesPass cv rest nv.2
        ({ r with mortes_violentas := some nv.1 } :: tail.1, tail.2)
    | none =>
        let tail := mortesPass cv rest g
        (r :: tail.1, tail.2)

/-- Model of `simular_parametros` (lines 48-96): optionally reseed the global
stream, then perturb all elasticities and then all death counts on a copy
of the table.  Returns the perturbed table and the advanced stream. -/
def simular_parametros (df_dados : List Row) (cvE cvT : ℚ)
    (seed : Option ℕ) (g : RNG) : List Row × RNG :=
  let g1 := match seed with
    | some s => npSeed s
    | none => g
  let pass1 := elastPass cvE df_dados g1
  mortesPass cvT pass1.1 pass1.2

/-- The per-draw seed argument of draw `i` (line 144 of `monte_carlo.py`):
`seed + i if seed else None`.  Python truthiness makes both a missing seed
*and the base seed 0* fall to `None`. -/
def perDrawSeed (seed : Option ℕ) (i : ℕ) : Option ℕ :=
  match seed with
  | none => none
  | some s => if s ≠ 0 then some (s + i) else none

/-- The successive perturbed tables consumed by the Monte Carlo loop,
starting at draw index `i` with `k` draws to go (the loop body of lines
138-145). -/
def mcTrace (df : List Row) (cvE cvT : ℚ) (seed : Option ℕ) :
    ℕ → ℕ → RNG → List (List Row)
  | _, 0, _ => []
  | i, Nat.succ k, g =>
      let d := simular_parametros df cvE cvT (perDrawSeed seed i) g
      d.1 :: mcTrace df cvE cvT seed (i + 1) k d.2

/-- The Monte Carlo envelope: the success count and the raw reduction and
cost distributions.  The summary statistics of the source (mean, standard
deviation, percentiles) are real-valued functions of
`distribuicao_reducao` (standard deviation and percentile interpolation
are irrational in general) and are not referenced by any claim. -/
structure ResultadoMonteCarlo where
  n_simulacoes : ℕ
  n_sucesso : ℕ
  distribuicao_reducao : List ℚ
  distribuicao_custo : List ℚ
deriving DecidableEq

/-- Model of `executar_monte_carlo` (lines 99-190): seed the global stream when a
seed is supplied (`is not None`), then for each draw perturb the table
(`simular_parametros` with the per-draw seed argument of `perDrawSeed`),
solve the LP at the fixed budget with default bounds, and record reduction
and cost (`nan`, modelled as dropped, when the reduction is zero) for
Optimal solves only.  A Python exception in any draw propagates. -/
def executar_monte_carlo (df_dados : List Row) (orcamento : ℚ)
    (n_simulacoes : ℕ) (cvE cvT : ℚ) (seed : Option ℕ) (g0 : RNG) :
    Except String ResultadoMonteCarlo :=
  let g1 := match seed with
    | some s => npSeed s
    | none => g0
  match exceptMap (fun dfSim => otimizar_alocacao dfSim orcamento 0 50)
      (mcTrace df_dados cvE cvT seed 0 n_simulacoes g1) with
  | .error e => .error e
  | .ok results =>
    let sucessos := results.filter (fun r => r.status == "Optimal")
    .ok { n_simulacoes := n_simulacoes
          n_sucesso := sucessos.length
          distribuicao_reducao := sucessos.map (fun r => (r.reducao_crimes : ℚ))
          distribuicao_custo := sucessos.filterMap (fun r =>
            if 0 < r.reducao_crimes then
              some (r.orcamento_usado / (r.reducao_crimes : ℚ))
            else none) }

/-! ### Caller-table framing (`otimizar_alocacao`, lines 88-102)

The body of `otimizar_alocacao` touches the caller's table only in
`df = df_dados.dropna(...).copy()`: `dropna` allocates a new frame,
`.copy()` another, and every later statement reads `df` or freshly built
frames.  Rendering the call in caller-state-passing style therefore
returns the caller's table unchanged. -/

/-- The call `otimizar_alocacao` together with the caller's table after the call. -/
def otimizar_alocacao_caller (df_dados : List Row) (orcamento : ℚ)
    (minPct maxPct : ℚ) : Except String ResultadoOtimizacao × List Row :=
  (otimizar_alocacao df_dados orcamento minPct maxPct, df_dados)

/-! ### Support lemmas for the claims -/

/-- Rounding to the nearest integer is monotone. -/
lemma round_mono_q {x y : ℚ} (h : x ≤ y) : round x ≤ round y := by
  rw [round_eq, round_eq]
  exact Int.floor_mono (by linarith)

/-- Rounding preserves non-negativity. -/
lemma round_nonneg_q {x : ℚ} (h : 0 ≤ x) : 0 ≤ round x := by
  have := round_mono_q h
  simpa using this

/-- Two-decimal rounding overshoots by at most half a cent. -/
lemma round2_le (x : ℚ) : round2 x ≤ x + 1/200 := by
  unfold round2
  have h : (round (x * 100) : ℚ) ≤ x * 100 + 1/2 := by
    rw [round_eq]
    exact_mod_cast Int.floor_le (x * 100 + 1/2)
  linarith

/-- Two-decimal rounding fixes integer multiples of `1/100`. -/
lemma round2_int_div (n : ℤ) : round2 ((n : ℚ) / 100) = (n : ℚ) / 100 := by
  unfold round2
  rw [div_mul_cancel₀ _ (by norm_num : (100 : ℚ) ≠ 0), round_intCast]

/-- A sum of two-decimal-rounded values is an integer multiple of `1/100`. -/
lemma sum_round2_form (l : List ℚ) : ∃ n : ℤ, (l.map round2).sum = (n : ℚ) / 100 := by
  induction l with
  | nil => exact ⟨0, by simp⟩
  | cons x t ih =>
    obtain ⟨n, hn⟩ := ih
    refine ⟨round (x * 100) + n, ?_⟩
    simp only [List.map_cons, List.sum_cons, hn, round2]
    push_cast
    ring

/-- Two-decimal rounding is the identity on a sum of two-decimal-rounded
values (so the outer `round(..., 2)` of `orcamento_usado` is inert). -/
lemma round2_sum_round2 (l : List ℚ) :
    round2 ((l.map round2).sum) = (l.map round2).sum := by
  obtain ⟨n, hn⟩ := sum_round2_form l
  rw [hn, round2_int_div]

/-- The computed columns of a merged allocation row. -/
def alocRowPre (x : AlocRow) : AlocPre :=
  { sigla := x.sigla
    investimento_milhoes := x.investimento_milhoes
    mortes_antes := x.mortes_antes
    mortes_depois := x.mortes_depois
    reducao_mortes := x.reducao_mortes
    reducao_percentual := x.reducao_percentual }

lemma alocRowPre_joinRow (a : AlocPre) (r : Row) : alocRowPre (joinRow a r) = a := rfl

lemma alocRowPre_joinNoMatch (a : AlocPre) : alocRowPre (joinNoMatch a) = a := rfl

/-- With pairwise-distinct state codes, a key filter finds at most one row. -/
lemma filter_sigla_len_le_one (right : List Row)
    (hn : (right.map Row.sigla).Nodup) (s : String) :
    (right.filter (fun x => x.sigla == s)).length ≤ 1 := by
  induction right with
  | nil => simp
  | cons r rest ih =>
    simp only [List.map_cons, List.nodup_cons] at hn
    by_cases h : r.sigla = s
    · have hrest : rest.filter (fun x => x.sigla == s) = [] := by
        rw [List.filter_eq_nil_iff]
        intro x hx hb
        have hxs : x.sigla = s := by simpa using hb
        exact hn.1 (by rw [h, ← hxs]; exact List.mem_map_of_mem _ hx)
      simp [List.filter_cons, h, hrest]
    · have : (r.sigla == s) = false := by simpa using h
      simp only [List.filter_cons, this, Bool.false_eq_true, if_false]
      exact ih hn.2

/-- Under pairwise-distinct right keys, the left merge reproduces exactly
the computed columns of the left rows, in order. -/
lemma merge_map_alocRowPre (left : List AlocPre) (right : List Row)
    (hn : (right.map Row.sigla).Nodup) :
    ((left.flatMap (fun a =>
      let ms := right.filter (fun r => r.sigla == a.sigla)
      if ms.isEmpty then [joinNoMatch a] else ms.map (joinRow a))).map
        alocRowPre) = left := by
  induction left with
  | nil => simp
  | cons a rest ih =>
    simp only [List.flatMap_cons, List.map_append, ih]
    have hlen := filter_sigla_len_le_one right hn a.sigla
    cases hfilter : right.filter (fun r => r.sigla == a.sigla) with
    | nil =>
      simp [hfilter, alocRowPre_joinNoMatch]
    | cons r tail =>
      rw [hfilter] at hlen
      have htail : tail = [] := by
        cases tail with
        | nil => rfl
        | cons b tb => simp at hlen
      subst htail
      simp [hfilter, alocRowPre_joinRow]

/-- Behaviour of `pdMergeAlocacao` on a non-empty left frame with pairwise-distinct
right keys: the merge succeeds and the computed columns survive as-is. -/
lemma pdMergeAlocacao_ok (left : List AlocPre) (right : List Row)
    (hne : left ≠ []) (hn : (right.map Row.sigla).Nodup) :
    ∃ merged, pdMergeAlocacao left right = .ok merged ∧
      merged.map alocRowPre = left := by
  refine ⟨_, ?_, merge_map_alocRowPre left right hn⟩
  unfold pdMergeAlocacao
  rw [if_neg (by simpa using hne)]

/-- A larger per-entry allocation yields larger looked-up values. -/
lemma allocValue_mono (xs ys : List (StParams × ℚ))
    (h : List.Forall₂ (fun a b => a.1 = b.1 ∧ a.2 ≤ b.2) xs ys) (sig : String) :
    allocValue xs sig ≤ allocValue ys sig := by
  induction h with
  | nil => simp [allocValue]
  | @cons a b xs ys hab _ ih =>
    have hb : (b.1.sigla == sig) = (a.1.sigla == sig) := by rw [hab.1]
    by_cases hp : (a.1.sigla == sig) = true
    · have hbp : (b.1.sigla == sig) = true := by rw [hb]; exact hp
      simp only [allocValue, List.find?, hp, hbp, Option.map_some, Option.getD_some]
      exact hab.2
    · have hp' : (a.1.sigla == sig) = false := by simpa using hp
      have hbp : (b.1.sigla == sig) = false := by rw [hb]; exact hp'
      have hih := ih
      simp only [allocValue] at hih ⊢
      simp only [List.find?, hp', hbp]
      exact hih

/-- With pairwise-distinct state codes, the lookup of a state present in
the list returns that state's own filled value. -/
lemma allocValue_fill_mem (l : List StParams) (r : ℚ)
    (hnd : (l.map StParams.sigla).Nodup) (p : StParams) (hp : p ∈ l) :
    ∃ pr ∈ fill l r, pr.1 = p ∧ allocValue (fill l r) p.sigla = pr.2 := by
  induction l generalizing r with
  | nil => cases hp
  | cons q rest ih =>
    simp only [List.map_cons, List.nodup_cons] at hnd
    have hfe : fill (q :: rest) r =
        (q, q.inv_min + min (q.inv_max - q.inv_min) r) ::
          fill rest (r - min (q.inv_max - q.inv_min) r) := rfl
    rcases List.mem_cons.mp hp with heq | hmem
    · subst heq
      refine ⟨(p, p.inv_min + min (p.inv_max - p.inv_min) r), by simp [hfe], rfl, ?_⟩
      simp only [allocValue, hfe, List.find?, beq_self_eq_true]
      rfl
    · have hqs : (q.sigla == p.sigla) = false := by
        simp only [beq_eq_false_iff_ne, ne_eq]
        intro hqp
        exact hnd.1 (by rw [hqp]; exact List.mem_map_of_mem _ hmem)
      obtain ⟨pr, hpr, hfst, hval⟩ :=
        ih (r - min (q.inv_max - q.inv_min) r) hnd.2 hmem
      refine ⟨pr, by simp [hfe, hpr], hfst, ?_⟩
      simp only [allocValue] at hval ⊢
      simp only [hfe, List.find?, hqs]
      exact hval

/-- The merge result determines the computed columns (Ok case). -/
lemma pdMerge_eq_ok_pre (left : List AlocPre) (right : List Row)
    (merged : List AlocRow) (hn : (right.map Row.sigla).Nodup)
    (h : pdMergeAlocacao left right = .ok merged) :
    merged.map alocRowPre = left := by
  unfold pdMergeAlocacao at h
  by_cases he : left.isEmpty
  · rw [if_pos he] at h; cases h
  · rw [if_neg he] at h
    injection h with h'
    rw [← h']
    exact merge_map_alocRowPre left right hn

/-- The per-state parameters built for `otimizar_alocacao`. -/
def paramsOf (df : List Row) (minp maxp : ℚ) : List StParams :=
  (dropnaLP df).map (mkParams minp maxp)

/-- The left frame of the allocation merge. -/
def alocListOf (df : List Row) (B minp maxp : ℚ) : List AlocPre :=
  (paramsOf df minp maxp).map (fun p =>
    mkAlocPre p (allocValue (greedyAlloc (paramsOf df minp maxp) B) p.sigla))

/-- Characterization of an `Optimal` return of `otimizar_alocacao`:
the instance was feasible, some state survived the filter, the allocation
table is the successful merge of the computed rows, and the aggregate
fields are the stated sums over that table. -/
lemma otimizar_ok_optimal (df : List Row) (B minp maxp : ℚ)
    (r : ResultadoOtimizacao)
    (h : otimizar_alocacao df B minp maxp = .ok r) (hs : r.status = "Optimal") :
    instFeasible (paramsOf df minp maxp) B ∧
    paramsOf df minp maxp ≠ [] ∧
    pdMergeAlocacao (alocListOf df B minp maxp) (dropnaLP df) = .ok r.alocacao ∧
    r.reducao_crimes = (r.alocacao.map (·.reducao_mortes)).sum ∧
    r.orcamento_usado = round2 ((r.alocacao.map (·.investimento_milhoes)).sum) := by
  by_cases hf : instFeasible ((dropnaLP df).map (mkParams minp maxp)) B
  · simp only [otimizar_alocacao] at h
    rw [if_pos hf] at h
    cases hm : pdMergeAlocacao
        (((dropnaLP df).map (mkParams minp maxp)).map (fun p =>
          mkAlocPre p (allocValue
            (greedyAlloc ((dropnaLP df).map (mkParams minp maxp)) B) p.sigla)))
        (dropnaLP df) with
    | error e =>
      rw [hm] at h
      cases h
    | ok merged =>
      rw [hm] at h
      injection h with h'
      subst h'
      refine ⟨hf, ?_, hm, rfl, rfl⟩
      intro hpe
      have hpe' : (dropnaLP df).map (mkParams minp maxp) = [] := hpe
      rw [hpe'] at hm
      simp [pdMergeAlocacao] at hm
  · simp only [otimizar_alocacao] at h
    rw [if_neg hf] at h
    injection h with h'
    rw [← h'] at hs
    simp only [lpStatusStr, if_neg hf] at hs
    exact absurd hs (by decide)

/-- Validity of the extracted parameters on a table whose complete rows
have positive budget and non-negative deaths and elasticity (the data
layer's invariant). -/
lemma paramsOf_valid (df : List Row) (minp maxp : ℚ)
    (hvalid : ∀ row ∈ dropnaLP df, 0 < row.orcamento_2022_milhoes.getD 0 ∧
      0 ≤ row.mortes_violentas.getD 0 ∧ 0 ≤ row.elasticidade.getD 0) :
    ∀ p ∈ paramsOf df minp maxp, 0 < p.orc ∧ 0 ≤ p.mortes ∧ 0 ≤ p.elast := by
  intro p hp
  simp only [paramsOf, List.mem_map] at hp
  obtain ⟨row, hrow, rfl⟩ := hp
  exact ⟨(hvalid row hrow).1, (hvalid row hrow).2.1, (hvalid row hrow).2.2⟩

/-- Non-negativity of the objective coefficient on valid parameters. -/
lemma coefObj_nonneg (p : StParams) (ho : 0 < p.orc) (hm : 0 ≤ p.mortes)
    (he : 0 ≤ p.elast) : 0 ≤ coefObj p :=
  div_nonneg (mul_nonneg hm he) ho.le

/-- Projection transfer through the merge: death reductions. -/
lemma merged_map_reducao (merged : List AlocRow) (left : List AlocPre)
    (h : merged.map alocRowPre = left) :
    merged.map (·.reducao_mortes) = left.map (·.reducao_mortes) := by
  rw [← h, List.map_map]; rfl

/-- Projection transfer through the merge: rounded investments. -/
lemma merged_map_invest (merged : List AlocRow) (left : List AlocPre)
    (h : merged.map alocRowPre = left) :
    merged.map (·.investimento_milhoes) = left.map (·.investimento_milhoes) := by
  rw [← h, List.map_map]; rfl

/-- The computed columns of the left frame, written per state. -/
lemma alocListOf_map_reducao (df : List Row) (B minp maxp : ℚ) :
    (alocListOf df B minp maxp).map (·.reducao_mortes) =
      (paramsOf df minp maxp).map (fun p => round (p.mortes * p.elast *
        allocValue (greedyAlloc (paramsOf df minp maxp) B) p.sigla / p.orc)) := by
  unfold alocListOf
  rw [List.map_map]
  rfl

/-- Claim C1: for a fixed table and identical remaining parameters, the
returned `reducao_crimes` of `otimizar_alocacao` is non-decreasing in the
budget whenever both solves are Optimal.  The table is assumed to satisfy
the data layer's invariant (positive `orcamento_2022_milhoes`,
non-negative deaths and elasticities on complete rows) and to carry
pairwise-distinct state codes. -/
theorem claim_C1_reducao_monotone (df : List Row) (minp maxp B1 B2 : ℚ)
    (hvalid : ∀ row ∈ dropnaLP df, 0 < row.orcamento_2022_milhoes.getD 0 ∧
      0 ≤ row.mortes_violentas.getD 0 ∧ 0 ≤ row.elasticidade.getD 0)
    (hnodup : ((dropnaLP df).map Row.sigla).Nodup)
    (hB : B1 < B2) (r1 r2 : ResultadoOtimizacao)
    (h1 : otimizar_alocacao df B1 minp maxp = .ok r1)
    (h2 : otimizar_alocacao df B2 minp maxp = .ok r2)
    (hs1 : r1.status = "Optimal") (hs2 : r2.status = "Optimal") :
    r1.reducao_crimes ≤ r2.reducao_crimes := by
  obtain ⟨hf1, _, hm1, hred1, _⟩ := otimizar_ok_optimal df B1 minp maxp r1 h1 hs1
  obtain ⟨_, _, hm2, hred2, _⟩ := otimizar_ok_optimal df B2 minp maxp r2 h2 hs2
  have hp1 := pdMerge_eq_ok_pre _ _ _ hnodup hm1
  have hp2 := pdMerge_eq_ok_pre _ _ _ hnodup hm2
  rw [hred1, hred2, merged_map_reducao _ _ hp1, merged_map_reducao _ _ hp2,
    alocListOf_map_reducao, alocListOf_map_reducao]
  apply List.sum_le_sum
  intro p hp
  have hv := paramsOf_valid df minp maxp hvalid p hp
  have hcoef : 0 ≤ coefObj p := coefObj_nonneg p hv.1 hv.2.1 hv.2.2
  have hmono : allocValue (greedyAlloc (paramsOf df minp maxp) B1) p.sigla ≤
      allocValue (greedyAlloc (paramsOf df minp maxp) B2) p.sigla := by
    apply allocValue_mono
    unfold greedyAlloc
    apply fill_mono
    · have := hf1.2
      have hsub : ((paramsOf df minp maxp).map (·.inv_min)).sum ≤ B1 := this
      linarith
    · linarith
  apply round_mono_q
  have e1 : p.mortes * p.elast *
      allocValue (greedyAlloc (paramsOf df minp maxp) B1) p.sigla / p.orc =
      coefObj p * allocValue (greedyAlloc (paramsOf df minp maxp) B1) p.sigla := by
    unfold coefObj; ring
  have e2 : p.mortes * p.elast *
      allocValue (greedyAlloc (paramsOf df minp maxp) B2) p.sigla / p.orc =
      coefObj p * allocValue (greedyAlloc (paramsOf df minp maxp) B2) p.sigla := by
    unfold coefObj; ring
  rw [e1, e2]
  exact mul_le_mul_of_nonneg_left hmono hcoef

/-- Lookup at the head state of an allocation list. -/
lemma allocValue_cons_pos (q : StParams) (v : ℚ) (tail : List (StParams × ℚ)) :
    allocValue ((q, v) :: tail) q.sigla = v := by
  simp [allocValue, List.find?]

/-- Lookup skipping a non-matching head. -/
lemma allocValue_cons_neg (q : StParams) (v : ℚ) (tail : List (StParams × ℚ))
    (sig : String) (h : (q.sigla == sig) = false) :
    allocValue ((q, v) :: tail) sig = allocValue tail sig := by
  simp only [allocValue, List.find?, h]

/-- With pairwise-distinct codes, summing the looked-up values over the
states returns the total handed out by the fill. -/
lemma sum_allocValue_fill (l : List StParams) (r : ℚ)
    (hnd : (l.map StParams.sigla).Nodup) :
    (l.map (fun p => allocValue (fill l r) p.sigla)).sum =
      ((fill l r).map (·.2)).sum := by
  induction l generalizing r with
  | nil => simp [fill]
  | cons q rest ih =>
    simp only [List.map_cons, List.nodup_cons] at hnd
    have hfe : fill (q :: rest) r =
        (q, q.inv_min + min (q.inv_max - q.inv_min) r) ::
          fill rest (r - min (q.inv_max - q.inv_min) r) := rfl
    rw [hfe]
    simp only [List.map_cons, List.sum_cons]
    rw [allocValue_cons_pos]
    have htail : rest.map (fun p =>
        allocValue ((q, q.inv_min + min (q.inv_max - q.inv_min) r) ::
          fill rest (r - min (q.inv_max - q.inv_min) r)) p.sigla) =
        rest.map (fun p =>
          allocValue (fill rest (r - min (q.inv_max - q.inv_min) r)) p.sigla) := by
      apply List.map_congr_left
      intro p hp
      apply allocValue_cons_neg
      simp only [beq_eq_false_iff_ne, ne_eq]
      intro hqp
      exact hnd.1 (by rw [hqp]; exact List.mem_map_of_mem _ hp)
    rw [htail, ih _ hnd.2]

/-- Adding a constant to every entry shifts the sum by `length · c`. -/
lemma sum_map_add_const (l : List ℚ) (c : ℚ) :
    (l.map (fun x => x + c)).sum = l.sum + l.length * c := by
  induction l with
  | nil => simp
  | cons x t ih => simp [ih]; ring

/-- The state codes of the extracted parameters are the table's codes. -/
lemma paramsOf_sigla (df : List Row) (minp maxp : ℚ) :
    (paramsOf df minp maxp).map StParams.sigla = (dropnaLP df).map Row.sigla := by
  unfold paramsOf
  rw [List.map_map]
  rfl

/-- Claim C2 (amended): on an Optimal solve the *exact* LP investments
respect the budget, `Σ_e x_e ≤ B`; the reported `orcamento_usado`, being a
sum of per-state investments rounded to two decimals, can exceed `B` by at
most half a cent per surviving state. -/
theorem claim_C2_budget_amended (df : List Row) (B minp maxp : ℚ)
    (hnodup : ((dropnaLP df).map Row.sigla).Nodup)
    (r : ResultadoOtimizacao)
    (h : otimizar_alocacao df B minp maxp = .ok r) (hs : r.status = "Optimal") :
    ((greedyAlloc (paramsOf df minp maxp) B).map (·.2)).sum ≤ B ∧
    r.orcamento_usado ≤ B + ((dropnaLP df).length : ℚ) * (1/200) := by
  obtain ⟨hf, _, hm, _, husd⟩ := otimizar_ok_optimal df B minp maxp r h hs
  have hperm := sortByCoef_perm (paramsOf df minp maxp)
  have hsorted_min : ((sortByCoef (paramsOf df minp maxp)).map (·.inv_min)).sum =
      ((paramsOf df minp maxp).map (·.inv_min)).sum := (hperm.map _).sum_eq
  have hc_sorted : ∀ p ∈ sortByCoef (paramsOf df minp maxp), p.inv_min ≤ p.inv_max :=
    fun p hp => hf.1 p (hperm.mem_iff.mp hp)
  have hr0 : 0 ≤ B - ((paramsOf df minp maxp).map (·.inv_min)).sum :=
    sub_nonneg.mpr hf.2
  have hfillsum : ((greedyAlloc (paramsOf df minp maxp) B).map (·.2)).sum ≤ B := by
    unfold greedyAlloc
    have := fill_sum_le (sortByCoef (paramsOf df minp maxp))
      (B - ((paramsOf df minp maxp).map (·.inv_min)).sum) hc_sorted hr0
    rw [hsorted_min] at this
    linarith
  refine ⟨hfillsum, ?_⟩
  have hpre := pdMerge_eq_ok_pre _ _ _ hnodup hm
  rw [husd, merged_map_invest _ _ hpre]
  have hmapinv : (alocListOf df B minp maxp).map (·.investimento_milhoes) =
      ((paramsOf df minp maxp).map (fun p =>
        allocValue (greedyAlloc (paramsOf df minp maxp) B) p.sigla)).map round2 := by
    unfold alocListOf
    rw [List.map_map, List.map_map]
    rfl
  rw [hmapinv, round2_sum_round2]
  have h1 : (((paramsOf df minp maxp).map (fun p =>
      allocValue (greedyAlloc (paramsOf df minp maxp) B) p.sigla)).map round2).sum ≤
      (((paramsOf df minp maxp).map (fun p =>
      allocValue (greedyAlloc (paramsOf df minp maxp) B) p.sigla)).map
        (fun x => x + 1/200)).sum :=
    List.sum_le_sum (fun x _ => round2_le x)
  rw [sum_map_add_const] at h1
  have hndp : ((paramsOf df minp maxp).map StParams.sigla).Nodup := by
    rw [paramsOf_sigla]; exact hnodup
  have hnds : ((sortByCoef (paramsOf df minp maxp)).map StParams.sigla).Nodup :=
    ((hperm.map StParams.sigla).nodup_iff).mpr hndp
  have hsum_vals : ((paramsOf df minp maxp).map (fun p =>
      allocValue (greedyAlloc (paramsOf df minp maxp) B) p.sigla)).sum =
      ((greedyAlloc (paramsOf df minp maxp) B).map (·.2)).sum := by
    have hps := (hperm.map (fun p =>
      allocValue (greedyAlloc (paramsOf df minp maxp) B) p.sigla)).sum_eq
    rw [← hps]
    exact sum_allocValue_fill (sortByCoef (paramsOf df minp maxp)) _ hnds
  rw [hsum_vals] at h1
  have hlen : (((paramsOf df minp maxp)).map (fun p =>
      allocValue (greedyAlloc (paramsOf df minp maxp) B) p.sigla)).length =
      (dropnaLP df).length := by
    rw [List.length_map]
    unfold paramsOf
    rw [List.length_map]
  rw [hlen] at h1
  linarith

/-- The investment bounds of extracted parameters, per state. -/
lemma paramsOf_bounds_eq (df : List Row) (minp maxp : ℚ) :
    ∀ p ∈ paramsOf df minp maxp,
      p.inv_min = p.orc * minp / 100 ∧ p.inv_max = p.orc * maxp / 100 := by
  intro p hp
  simp only [paramsOf, List.mem_map] at hp
  obtain ⟨row, _, rfl⟩ := hp
  exact ⟨rfl, rfl⟩

/-- Transfer of a per-row elasticity bound to the extracted parameters. -/
lemma paramsOf_elast_bound (df : List Row) (minp maxp : ℚ)
    (helast : ∀ row ∈ dropnaLP df, row.elasticidade.getD 0 * maxp ≤ 100) :
    ∀ p ∈ paramsOf df minp maxp, p.elast * maxp ≤ 100 := by
  intro p hp
  simp only [paramsOf, List.mem_map] at hp
  obtain ⟨row, hrow, rfl⟩ := hp
  exact helast row hrow

/-- Unfolding of `Except.map` on a successful result. -/
lemma except_map_eq_ok {β γ : Type} (e : Except String β) (g : β → γ) (v : γ)
    (h : e.map g = .ok v) : ∃ b, e = .ok b ∧ g b = v := by
  cases e with
  | error msg => simp [Except.map] at h
  | ok b =>
    refine ⟨b, rfl, ?_⟩
    simpa [Except.map] using h

/-- Membership in a successful inner merge. -/
lemma pdMergeMulti_ok_mem (left : List MAlocPre) (right : List Row)
    (merged : List MAlocRow) (h : pdMergeMulti left right = .ok merged) :
    ∀ x ∈ merged, ∃ a ∈ left, ∃ rr, x = joinMRow a rr := by
  unfold pdMergeMulti at h
  by_cases he : left.isEmpty
  · rw [if_pos he] at h; cases h
  · rw [if_neg he] at h
    injection h with h'
    subst h'
    intro x hx
    rw [List.mem_flatMap] at hx
    obtain ⟨a, ha, hx⟩ := hx
    rw [List.mem_map] at hx
    obtain ⟨rr, _, hrr⟩ := hx
    exact ⟨a, ha, rr, hrr.symm⟩

/-- In every successful multi-period result, every allocation row of every
period has a non-negative `crimes_apos` (the `max(0, ...)` floor of line
196 of `multi_periodo.py`). -/
lemma multi_crimes_apos_nonneg (df : List Row) (orcs : List ℚ)
    (dep minp maxp : ℚ) (res : ResultadoMultiPeriodo)
    (h : otimizar_multi_periodo df orcs dep minp maxp = .ok res) :
    ∀ tm ∈ res.alocacao_por_periodo, ∀ x ∈ tm.2, 0 ≤ x.crimes_apos := by
  simp only [otimizar_multi_periodo] at h
  by_cases hf : multiFeasible ((dropnaLP df).map (mkParams minp maxp)) orcs
  · rw [if_pos hf] at h
    cases hmm : exceptMap (fun ti =>
        (pdMergeMulti (((dropnaLP df).map (mkParams minp maxp)).map (fun p =>
          mkMAlocPre ((dropnaLP df).map (mkParams minp maxp)) orcs dep p (ti + 1)))
          (dropnaLP df)).map (fun merged => (ti + 1, merged)))
        (List.range orcs.length) with
    | error e => rw [hmm] at h; cases h
    | ok merges =>
      rw [hmm] at h
      injection h with h'
      subst h'
      intro tm htm x hx
      obtain ⟨ti, _, hfti⟩ := exceptMap_ok_mem _ _ _ hmm tm htm
      obtain ⟨merged, hmg, htm2⟩ := except_map_eq_ok _ _ _ hfti
      have hx2 : x ∈ merged := by
        rw [← htm2] at hx
        exact hx
      obtain ⟨a, ha, rr, hxj⟩ := pdMergeMulti_ok_mem _ _ _ hmg x hx2
      rw [List.mem_map] at ha
      obtain ⟨p, _, hap⟩ := ha
      have : x.crimes_apos = round0 (max 0 (p.mortes -
          multiReducao ((dropnaLP df).map (mkParams minp maxp)) orcs dep p (ti + 1))) := by
        rw [hxj, ← hap]
        rfl
      rw [this]
      unfold round0
      exact_mod_cast round_nonneg_q (le_max_left 0 _)
  · rw [if_neg hf] at h
    injection h with h'
    subst h'
    intro tm htm
    cases htm

/-- Claim C3 (amended): in `otimizar_alocacao` the reported `mortes_depois`
is `round(deaths - reduction)` with *no* floor at zero, so it is
non-negative only under the additional guarantee that no state's reduction
can exceed its death count — for instance whenever
`elasticidade · max_pct ≤ 100` for every state (true of the repository's
data, elasticities ≤ 0.3 with max_pct defaults ≤ 50); in
`otimizar_multi_periodo` the corresponding `crimes_apos` *is* floored at
zero and is non-negative in every period unconditionally. -/
theorem claim_C3_mortes_depois_amended :
    (∀ (df : List Row) (B minp maxp : ℚ) (r : ResultadoOtimizacao),
      (∀ row ∈ dropnaLP df, 0 < row.orcamento_2022_milhoes.getD 0 ∧
        0 ≤ row.mortes_violentas.getD 0 ∧ 0 ≤ row.elasticidade.getD 0) →
      ((dropnaLP df).map Row.sigla).Nodup →
      (∀ row ∈ dropnaLP df, row.elasticidade.getD 0 * maxp ≤ 100) →
      otimizar_alocacao df B minp maxp = .ok r → r.status = "Optimal" →
      ∀ x ∈ r.alocacao, 0 ≤ x.mortes_depois) ∧
    (∀ (df : List Row) (orcs : List ℚ) (dep minp maxp : ℚ)
        (res : ResultadoMultiPeriodo),
      otimizar_multi_periodo df orcs dep minp maxp = .ok res →
      ∀ tm ∈ res.alocacao_por_periodo, ∀ x ∈ tm.2, 0 ≤ x.crimes_apos) := by
  constructor
  · intro df B minp maxp r hvalid hnodup helast h hs x hx
    obtain ⟨hf, _, hm, _, _⟩ := otimizar_ok_optimal df B minp maxp r h hs
    have hpre := pdMerge_eq_ok_pre _ _ _ hnodup hm
    have hxl : alocRowPre x ∈ alocListOf df B minp maxp := by
      rw [← hpre]
      exact List.mem_map_of_mem _ hx
    unfold alocListOf at hxl
    rw [List.mem_map] at hxl
    obtain ⟨p, hp, hxp⟩ := hxl
    have hv := paramsOf_valid df minp maxp hvalid p hp
    have hb := paramsOf_bounds_eq df minp maxp p hp
    have he := paramsOf_elast_bound df minp maxp helast p hp
    -- bound the solved investment by the state's upper box bound
    have hperm := sortByCoef_perm (paramsOf df minp maxp)
    have hndp : ((paramsOf df minp maxp).map StParams.sigla).Nodup := by
      rw [paramsOf_sigla]; exact hnodup
    have hnds : ((sortByCoef (paramsOf df minp maxp)).map StParams.sigla).Nodup :=
      ((hperm.map StParams.sigla).nodup_iff).mpr hndp
    have hps : p ∈ sortByCoef (paramsOf df minp maxp) := hperm.mem_iff.mpr hp
    obtain ⟨pr, hprm, hprf, hprv⟩ := allocValue_fill_mem
      (sortByCoef (paramsOf df minp maxp))
      (B - ((paramsOf df minp maxp).map (·.inv_min)).sum) hnds p hps
    have hc_sorted : ∀ q ∈ sortByCoef (paramsOf df minp maxp),
        q.inv_min ≤ q.inv_max := fun q hq => hf.1 q (hperm.mem_iff.mp hq)
    have hr0 : 0 ≤ B - ((paramsOf df minp maxp).map (·.inv_min)).sum :=
      sub_nonneg.mpr hf.2
    have hbb := fill_bounds _ _ hc_sorted hr0 pr hprm
    have hinvle : allocValue (greedyAlloc (paramsOf df minp maxp) B) p.sigla ≤
        p.inv_max := by
      unfold greedyAlloc
      rw [hprv]
      rw [hprf] at hbb
      exact hbb.2
    -- the reduction cannot exceed the death count
    have hred : p.mortes * p.elast *
        allocValue (greedyAlloc (paramsOf df minp maxp) B) p.sigla / p.orc ≤
        p.mortes := by
      have hco : 0 ≤ coefObj p := coefObj_nonneg p hv.1 hv.2.1 hv.2.2
      have e1 : p.mortes * p.elast *
          allocValue (greedyAlloc (paramsOf df minp maxp) B) p.sigla / p.orc =
          coefObj p * allocValue (greedyAlloc (paramsOf df minp maxp) B) p.sigla := by
        unfold coefObj; ring
      have e2 : coefObj p * p.inv_max = p.mortes * (p.elast * maxp) / 100 := by
        unfold coefObj
        rw [hb.2]
        have ho : p.orc ≠ 0 := ne_of_gt hv.1
        field_simp
        ring
      have h3 : coefObj p * allocValue (greedyAlloc (paramsOf df minp maxp) B) p.sigla ≤
          coefObj p * p.inv_max := mul_le_mul_of_nonneg_left hinvle hco
      have h4 : p.mortes * (p.elast * maxp) ≤ p.mortes * 100 :=
        mul_le_mul_of_nonneg_left he hv.2.1
      rw [e1]
      rw [e2] at h3
      linarith
    have hmd : x.mortes_depois = round (p.mortes - p.mortes * p.elast *
        allocValue (greedyAlloc (paramsOf df minp maxp) B) p.sigla / p.orc) := by
      have : x.mortes_depois = (alocRowPre x).mortes_depois := rfl
      rw [this, ← hxp]
      rfl
    rw [hmd]
    exact round_nonneg_q (by linarith)
  · exact fun df orcs dep minp maxp res h => multi_crimes_apos_nonneg df orcs dep minp maxp res h

/-- Claim C4: on any non-Optimal terminal solver status both optimizers
return (never raise) an envelope that preserves the solver's status string
with all numeric fields zero and empty tables/dictionaries; and
`comparar_estrategias` records a row only for strategies whose multi-period
solve is Optimal — a non-Optimal strategy is skipped, never reported as a
zero row. -/
theorem claim_C4_failure_semantics :
    (∀ (df : List Row) (B minp maxp : ℚ),
      lpStatusStr ((dropnaLP df).map (mkParams minp maxp)) B ≠ "Optimal" →
      otimizar_alocacao df B minp maxp =
        .ok { status := lpStatusStr ((dropnaLP df).map (mkParams minp maxp)) B
              orcamento_usado := 0
              reducao_crimes := 0
              reducao_percentual := 0
              alocacao := []
              fo_valor := 0 }) ∧
    (∀ (df : List Row) (orcs : List ℚ) (dep minp maxp : ℚ),
      multiStatusStr ((dropnaLP df).map (mkParams minp maxp)) orcs ≠ "Optimal" →
      otimizar_multi_periodo df orcs dep minp maxp =
        .ok { status := multiStatusStr ((dropnaLP df).map (mkParams minp maxp)) orcs
              n_periodos := orcs.length
              orcamento_total_usado := 0
              reducao_total_crimes := 0
              alocacao_por_periodo := []
              reducao_por_periodo := []
              trajetoria_crimes := [] }) ∧
    (∀ (df : List Row) (total : ℚ) (n : ℕ) (rows : List CompRow),
      comparar_estrategias df total n = .ok rows →
      ∀ row ∈ rows, ∃ pair ∈ estrategiasRaw total n,
        ∃ res : ResultadoMultiPeriodo,
          otimizar_multi_periodo df (normalizeEstrategia total pair.2)
            (1/10) 0 30 = .ok res ∧
          res.status = "Optimal" ∧ row.estrategia = pair.1 ∧
          row.reducao_total = res.reducao_total_crimes) := by
  refine ⟨?_, ?_, ?_⟩
  · intro df B minp maxp hne
    have hnf : ¬ instFeasible ((dropnaLP df).map (mkParams minp maxp)) B := by
      intro hfe
      exact hne (by simp [lpStatusStr, if_pos hfe])
    simp only [otimizar_alocacao]
    rw [if_neg hnf]
  · intro df orcs dep minp maxp hne
    have hnf : ¬ multiFeasible ((dropnaLP df).map (mkParams minp maxp)) orcs := by
      intro hfe
      exact hne (by simp [multiStatusStr, if_pos hfe])
    simp only [otimizar_multi_periodo]
    rw [if_neg hnf]
  · intro df total n rows h row hrow
    simp only [comparar_estrategias] at h
    cases hem : exceptMap (fun pair =>
        (otimizar_multi_periodo df (normalizeEstrategia total pair.2)
          (1/10) 0 30).map (fun res =>
          if res.status = "Optimal" then
            some ({ estrategia := pair.1
                    orcamento_total := total
                    n_periodos := n
                    reducao_total := res.reducao_total_crimes
                    reducao_primeiro_periodo := dictGet res.reducao_por_periodo 1
                    reducao_ultimo_periodo := dictGet res.reducao_por_periodo n
                    distribuicao := (normalizeEstrategia total pair.2).map round0 } :
              CompRow)
          else none)) (estrategiasRaw total n) with
    | error e => rw [hem] at h; cases h
    | ok rows0 =>
      rw [hem] at h
      injection h with h'
      subst h'
      rw [List.mem_filterMap] at hrow
      obtain ⟨orow, horow, hid⟩ := hrow
      have horow' : some row ∈ rows0 := by
        have hor : orow = some row := hid
        rw [← hor]
        exact horow
      obtain ⟨pair, hpair, hfp⟩ := exceptMap_ok_mem _ _ _ hem (some row) horow'
      obtain ⟨res, hres, hgr⟩ := except_map_eq_ok _ _ _ hfp
      by_cases hst : res.status = "Optimal"
      · rw [if_pos hst] at hgr
        injection hgr with hgr'
        refine ⟨pair, hpair, res, hres, hst, ?_, ?_⟩
        · rw [← hgr']
        · rw [← hgr']
      · rw [if_neg hst] at hgr
        cases hgr

/-- A row whose `elasticidade` is missing: `dropna` removes it, leaving the
solver with zero states. -/
def rowIncompleta : Row :=
  { sigla := "XX"
    estado := "Estado X"
    regiao := "Norte"
    populacao := 100
    mortes_violentas := some 50
    orcamento_2022_milhoes := some 10
    elasticidade := none }

/-- Claim C5, failing run: on a table that is empty after `dropna`, with a
non-negative budget, the solve itself terminates Optimal (the empty LP is
trivially feasible) but the result extraction then *raises* `KeyError`:
`pd.DataFrame([])` has no columns, so the merge on `sigla` fails — the call
does not return the well-formed empty envelope the spec requires. -/
theorem claim_C5_empty_table_crash :
    otimizar_alocacao [rowIncompleta] 7 0 50 = .error "KeyError: sigla" ∧
    lpStatusStr (paramsOf [rowIncompleta] 0 50) 7 = "Optimal" := by
  constructor
  · rfl
  · rfl

/-- Claim C8: `calcular_shadow_prices` computes the shadow price of the
total-budget constraint as the central finite difference of the achieved
reductions of two re-solves at `orcamento ± delta` with the default step
`delta = 100` (at which the 4-decimal output rounding is exact, since
reductions are integers and their difference over `2·100` has at most four
decimals). -/
theorem claim_C8_shadow_price (df : List Row) (B : ℚ)
    (rb rp rm : ResultadoOtimizacao)
    (hb : otimizar_alocacao df B 0 50 = .ok rb)
    (hp : otimizar_alocacao df (B + 100) 0 50 = .ok rp)
    (hm : otimizar_alocacao df (B - 100) 0 50 = .ok rm) :
    calcular_shadow_prices df B 100 =
      .ok (((rp.reducao_crimes : ℚ) - (rm.reducao_crimes : ℚ)) / (2 * 100)) := by
  simp only [calcular_shadow_prices, hb, hp, hm]
  congr 1
  obtain ⟨n, hn⟩ : ∃ n : ℤ,
      ((rp.reducao_crimes : ℚ) - (rm.reducao_crimes : ℚ)) = (n : ℚ) :=
    ⟨rp.reducao_crimes - rm.reducao_crimes, by push_cast; ring⟩
  rw [hn]
  unfold round4
  rw [show ((n : ℚ) / (2 * 100)) * 10000 = ((50 * n : ℤ) : ℚ) by push_cast; ring]
  rw [round_intCast]
  push_cast
  ring

/-- One step of the stock recurrence. -/
lemma estoque_succ (inv : ℕ → ℚ) (dep : ℚ) (k : ℕ) :
    estoque_acum inv dep (k + 1) =
      inv (k + 1) + (1 - dep) * estoque_acum inv dep k := by
  unfold estoque_acum
  rw [Finset.sum_range_succ, Finset.mul_sum]
  have hcong : ∀ s ∈ Finset.range k,
      inv (s + 1) * (1 - dep) ^ (k + 1 - (s + 1)) =
        (1 - dep) * (inv (s + 1) * (1 - dep) ^ (k - (s + 1))) := by
    intro s hs
    rw [Finset.mem_range] at hs
    have h1 : k + 1 - (s + 1) = (k - (s + 1)) + 1 := by omega
    rw [h1, pow_succ]
    ring
  rw [Finset.sum_congr rfl hcong]
  have h0 : k + 1 - (k + 1) = 0 := by omega
  rw [h0, pow_zero]
  ring

/-- Claim C9: the accumulated stock of `otimizar_multi_periodo` satisfies
`stock 1 = investment 1` and
`stock t = investment t + (1 - depreciacao) · stock (t-1)` for `t ≥ 2`;
consequently with zero depreciation the period-`T` stock is the plain sum
of the investments of periods `1..T`, and with full depreciation it is the
period-`T` investment alone. -/
theorem claim_C9_estoque_recursion :
    (∀ (inv : ℕ → ℚ) (dep : ℚ), estoque_acum inv dep 1 = inv 1) ∧
    (∀ (inv : ℕ → ℚ) (dep : ℚ) (t : ℕ), 2 ≤ t →
      estoque_acum inv dep t = inv t + (1 - dep) * estoque_acum inv dep (t - 1)) ∧
    (∀ (inv : ℕ → ℚ) (T : ℕ),
      estoque_acum inv 0 T = ∑ s ∈ Finset.range T, inv (s + 1)) ∧
    (∀ (inv : ℕ → ℚ) (T : ℕ), 1 ≤ T → estoque_acum inv 1 T = inv T) := by
  refine ⟨?_, ?_, ?_, ?_⟩
  · intro inv dep
    simp [estoque_acum]
  · intro inv dep t ht
    obtain ⟨k, rfl⟩ : ∃ k, t = k + 1 := ⟨t - 1, by omega⟩
    simp only [Nat.add_sub_cancel]
    exact estoque_succ inv dep k
  · intro inv T
    unfold estoque_acum
    apply Finset.sum_congr rfl
    intro s _
    norm_num
  · intro inv T hT
    unfold estoque_acum
    rw [Finset.sum_eq_single (T - 1)]
    · have h1 : T - 1 + 1 = T := by omega
      rw [h1]
      simp
    · intro s hs hne
      rw [Finset.mem_range] at hs
      rw [show (1 : ℚ) - 1 = 0 by norm_num,
        zero_pow (by omega : T - (s + 1) ≠ 0), mul_zero]
    · intro habs
      exact absurd (Finset.mem_range.mpr (by omega)) habs

/-- Claim C10: `otimizar_alocacao` never mutates its caller's table — the
body only reads `df_dados` through the fresh `dropna(...).copy()` frame, so
the caller-state-passing rendering of the call returns the table
unchanged, whatever the outcome. -/
theorem claim_C10_no_mutation (df : List Row) (B minp maxp : ℚ) :
    (otimizar_alocacao_caller df B minp maxp).2 = df := rfl

/-- A seeded `simular_parametros` ignores (and does not depend on) the
incoming stream state. -/
lemma simular_seeded_state (df : List Row) (cvE cvT : ℚ) (m : ℕ) (g : RNG) :
    simular_parametros df cvE cvT (some m) g =
      simular_parametros df cvE cvT (some m) 0 := rfl

/-- With a non-zero base seed, the Monte Carlo loop's draw tables are fully
determined by the per-draw seeds `base + i`. -/
lemma mcTrace_seeded (df : List Row) (cvE cvT : ℚ) (s : ℕ) (hs : s ≠ 0) :
    ∀ (k i : ℕ) (g : RNG),
      mcTrace df cvE cvT (some s) i k g =
        (List.range k).map (fun j =>
          (simular_parametros df cvE cvT (some (s + (i + j))) 0).1) := by
  intro k
  induction k with
  | zero => intro i g; rfl
  | succ k ih =>
    intro i g
    rw [show mcTrace df cvE cvT (some s) i (k + 1) g =
      (simular_parametros df cvE cvT (perDrawSeed (some s) i) g).1 ::
        mcTrace df cvE cvT (some s) (i + 1) k
          (simular_parametros df cvE cvT (perDrawSeed (some s) i) g).2 from rfl]
    rw [ih (i + 1)]
    rw [show perDrawSeed (some s) i = some (s + i) from by simp [perDrawSeed, hs]]
    rw [List.range_succ_eq_map, List.map_cons, List.map_map]
    congr 1
    apply List.map_congr_left
    intro j _
    have harg : s + (i + 1 + j) = s + (i + (j + 1)) := by omega
    show (simular_parametros df cvE cvT (some (s + (i + 1 + j))) 0).1 =
      (simular_parametros df cvE cvT (some (s + (i + (j + 1)))) 0).1
    rw [harg]

/-- Claim C6 (amended): for every supplied base seed the two runs of
`executar_monte_carlo` with identical arguments and *any* prior global
stream states coincide (the initial `np.random.seed` makes the run
independent of prior state), and for every *non-zero* base seed draw `i` is
generated from the deterministic per-draw seed `base + i`; for base seed 0
the per-draw seed argument falls to `None` (Python truthiness of `0`), so
draws continue the single globally-seeded stream instead. -/
theorem claim_C6_seed_amended (df : List Row) (B : ℚ) (n : ℕ) (cvE cvT : ℚ)
    (s : ℕ) (g g' : RNG) :
    executar_monte_carlo df B n cvE cvT (some s) g =
      executar_monte_carlo df B n cvE cvT (some s) g' ∧
    (s ≠ 0 → mcTrace df cvE cvT (some s) 0 n (npSeed s) =
      (List.range n).map (fun i =>
        (simular_parametros df cvE cvT (some (s + i)) 0).1)) := by
  constructor
  · rfl
  · intro hs
    rw [mcTrace_seeded df cvE cvT s hs n 0 (npSeed s)]
    apply List.map_congr_left
    intro j _
    have harg : s + (0 + j) = s + j := by omega
    rw [harg]

/-- Elasticity and death-count perturbations, characterized per sample
(claim C7, amended): the elasticity is the Normal draw clipped to
`[0.01, 0.30]` exactly as claimed, but the death count is
`max(1, int(draw))` — the draw is *truncated toward zero* by Python's
`int()`, not rounded to the nearest integer. -/
theorem claim_C7_perturbation_amended (base cvE cvT : ℚ) (g : RNG) :
    (perturbaElast base cvE g).1 =
      npClip (base + base * cvE * stdNormalSample g) (1/100) (3/10) ∧
    1/100 ≤ (perturbaElast base cvE g).1 ∧
    (perturbaElast base cvE g).1 ≤ 3/10 ∧
    (perturbaMortes base cvT g).1 =
      ((max 1 (ratTrunc (base + base * cvT * stdNormalSample g)) : ℤ) : ℚ) ∧
    1 ≤ (perturbaMortes base cvT g).1 := by
  refine ⟨rfl, ?_, ?_, rfl, ?_⟩
  · unfold perturbaElast npClip npNormal
    exact le_min (by norm_num) (le_max_left _ _)
  · unfold perturbaElast npClip npNormal
    exact min_le_left _ _
  · have h1 : (1 : ℤ) ≤ max 1 (ratTrunc (base + base * cvT * stdNormalSample g)) :=
      le_max_left _ _
    show (1 : ℚ) ≤
      ((max 1 (ratTrunc (base + base * cvT * stdNormalSample g)) : ℤ) : ℚ)
    exact_mod_cast h1

/-! ### Concrete instances for counterexamples and witnesses -/

/-- A one-state table with comfortable numbers. -/
def row0 : Row :=
  { sigla := "A"
    estado := "Estado A"
    regiao := "Norte"
    populacao := 1000
    mortes_violentas := some 100
    orcamento_2022_milhoes := some 100
    elasticidade := some (1/10) }

/-- Result of `otimizar_alocacao [row0] 10 0 50`. -/
def res0 : ResultadoOtimizacao :=
  { status := "Optimal"
    orcamento_usado := 10
    reducao_crimes := 1
    reducao_percentual := 1
    alocacao := [{ sigla := "A"
                   investimento_milhoes := 10
                   mortes_antes := 100
                   mortes_depois := 99
                   reducao_mortes := 1
                   reducao_percentual := 1
                   estado := some "Estado A"
                   regiao := some "Norte"
                   populacao := some 1000
                   orcamento_2022_milhoes := some 100
                   elasticidade := some (1/10) }]
    fo_valor := -1 }

/-- Result of `otimizar_alocacao [row0] 20 0 50`. -/
def res0b : ResultadoOtimizacao :=
  { status := "Optimal"
    orcamento_usado := 20
    reducao_crimes := 2
    reducao_percentual := 2
    alocacao := [{ sigla := "A"
                   investimento_milhoes := 20
                   mortes_antes := 100
                   mortes_depois := 98
                   reducao_mortes := 2
                   reducao_percentual := 2
                   estado := some "Estado A"
                   regiao := some "Norte"
                   populacao := some 1000
                   orcamento_2022_milhoes := some 100
                   elasticidade := some (1/10) }]
    fo_valor := -2 }

/-- Result of `otimizar_alocacao [row0] B 0 50` for any budget `B ≥ 50` that leaves
the box bound binding (used at 900, 1000 and 1100). -/
def res50 : ResultadoOtimizacao :=
  { status := "Optimal"
    orcamento_usado := 50
    reducao_crimes := 5
    reducao_percentual := 5
    alocacao := [{ sigla := "A"
                   investimento_milhoes := 50
                   mortes_antes := 100
                   mortes_depois := 95
                   reducao_mortes := 5
                   reducao_percentual := 5
                   estado := some "Estado A"
                   regiao := some "Norte"
                   populacao := some 1000
                   orcamento_2022_milhoes := some 100
                   elasticidade := some (1/10) }]
    fo_valor := -5 }

lemma eval_row0_10 : otimizar_alocacao [row0] 10 0 50 = .ok res0 := by
  have hfeas : instFeasible ((dropnaLP [row0]).map (mkParams 0 50)) 10 := by
    constructor
    · intro p hp
      simp only [dropnaLP, row0, rowComplete, List.filter, List.map, mkParams,
        List.mem_singleton, Option.isSome] at hp
      subst hp
      norm_num
    · simp only [dropnaLP, row0, rowComplete, List.filter, List.map, mkParams,
        Option.isSome]
      norm_num
  simp only [otimizar_alocacao]
  rw [if_pos hfeas]
  norm_num [dropnaLP, row0, rowComplete, List.filter, mkParams, greedyAlloc,
    sortByCoef, List.insertionSort, List.orderedInsert, coefObj, fill, allocValue,
    List.find?, mkAlocPre, pdMergeAlocacao, joinRow, round2, round4, ratTrunc,
    round_eq, res0]

lemma eval_row0_20 : otimizar_alocacao [row0] 20 0 50 = .ok res0b := by
  have hfeas : instFeasible ((dropnaLP [row0]).map (mkParams 0 50)) 20 := by
    constructor
    · intro p hp
      simp only [dropnaLP, row0, rowComplete, List.filter, List.map, mkParams,
        List.mem_singleton, Option.isSome] at hp
      subst hp
      norm_num
    · simp only [dropnaLP, row0, rowComplete, List.filter, List.map, mkParams,
        Option.isSome]
      norm_num
  simp only [otimizar_alocacao]
  rw [if_pos hfeas]
  norm_num [dropnaLP, row0, rowComplete, List.filter, mkParams, greedyAlloc,
    sortByCoef, List.insertionSort, List.orderedInsert, coefObj, fill, allocValue,
    List.find?, mkAlocPre, pdMergeAlocacao, joinRow, round2, round4, ratTrunc,
    round_eq, res0b]

lemma eval_row0_900 : otimizar_alocacao [row0] (1000 - 100) 0 50 = .ok res50 := by
  have hfeas : instFeasible ((dropnaLP [row0]).map (mkParams 0 50)) (1000 - 100) := by
    constructor
    · intro p hp
      simp only [dropnaLP, row0, rowComplete, List.filter, List.map, mkParams,
        List.mem_singleton, Option.isSome] at hp
      subst hp
      norm_num
    · simp only [dropnaLP, row0, rowComplete, List.filter, List.map, mkParams,
        Option.isSome]
      norm_num
  simp only [otimizar_alocacao]
  rw [if_pos hfeas]
  norm_num [dropnaLP, row0, rowComplete, List.filter, mkParams, greedyAlloc,
    sortByCoef, List.insertionSort, List.orderedInsert, coefObj, fill, allocValue,
    List.find?, mkAlocPre, pdMergeAlocacao, joinRow, round2, round4, ratTrunc,
    round_eq, res50]

lemma eval_row0_1000 : otimizar_alocacao [row0] 1000 0 50 = .ok res50 := by
  have hfeas : instFeasible ((dropnaLP [row0]).map (mkParams 0 50)) 1000 := by
    constructor
    · intro p hp
      simp only [dropnaLP, row0, rowComplete, List.filter, List.map, mkParams,
        List.mem_singleton, Option.isSome] at hp
      subst hp
      norm_num
    · simp only [dropnaLP, row0, rowComplete, List.filter, List.map, mkParams,
        Option.isSome]
      norm_num
  simp only [otimizar_alocacao]
  rw [if_pos hfeas]
  norm_num [dropnaLP, row0, rowComplete, List.filter, mkParams, greedyAlloc,
    sortByCoef, List.insertionSort, List.orderedInsert, coefObj, fill, allocValue,
    List.find?, mkAlocPre, pdMergeAlocacao, joinRow, round2, round4, ratTrunc,
    round_eq, res50]

lemma eval_row0_1100 : otimizar_alocacao [row0] (1000 + 100) 0 50 = .ok res50 := by
  have hfeas : instFeasible ((dropnaLP [row0]).map (mkParams 0 50)) (1000 + 100) := by
    constructor
    · intro p hp
      simp only [dropnaLP, row0, rowComplete, List.filter, List.map, mkParams,
        List.mem_singleton, Option.isSome] at hp
      subst hp
      norm_num
    · simp only [dropnaLP, row0, rowComplete, List.filter, List.map, mkParams,
        Option.isSome]
      norm_num
  simp only [otimizar_alocacao]
  rw [if_pos hfeas]
  norm_num [dropnaLP, row0, rowComplete, List.filter, mkParams, greedyAlloc,
    sortByCoef, List.insertionSort, List.orderedInsert, coefObj, fill, allocValue,
    List.find?, mkAlocPre, pdMergeAlocacao, joinRow, round2, round4, ratTrunc,
    round_eq, res50]

/-- Two tiny states used to break budget conservation through rounding. -/
def rowA1 : Row :=
  { sigla := "A"
    estado := "Estado A"
    regiao := "Sul"
    populacao := 10
    mortes_violentas := some 10
    orcamento_2022_milhoes := some 1
    elasticidade := some (1/10) }

/-- Second tiny state. -/
def rowB1 : Row :=
  { sigla := "B"
    estado := "Estado B"
    regiao := "Sul"
    populacao := 10
    mortes_violentas := some 10
    orcamento_2022_milhoes := some 1
    elasticidade := some (1/10) }

/-- Result of `otimizar_alocacao [rowA1, rowB1] 0.014 0.7 0.7`: both pinned
investments are `0.007`, each reported as `0.01` after 2-decimal rounding,
so `orcamento_usado = 0.02 > 0.014`. -/
def resC2 : ResultadoOtimizacao :=
  { status := "Optimal"
    orcamento_usado := 1/50
    reducao_crimes := 0
    reducao_percentual := 0
    alocacao := [{ sigla := "A"
                   investimento_milhoes := 1/100
                   mortes_antes := 10
                   mortes_depois := 10
                   reducao_mortes := 0
                   reducao_percentual := 7/100
                   estado := some "Estado A"
                   regiao := some "Sul"
                   populacao := some 10
                   orcamento_2022_milhoes := some 1
                   elasticidade := some (1/10) },
                 { sigla := "B"
                   investimento_milhoes := 1/100
                   mortes_antes := 10
                   mortes_depois := 10
                   reducao_mortes := 0
                   reducao_percentual := 7/100
                   estado := some "Estado B"
                   regiao := some "Sul"
                   populacao := some 10
                   orcamento_2022_milhoes := some 1
                   elasticidade := some (1/10) }]
    fo_valor := -7/500 }

lemma eval_C2 :
    otimizar_alocacao [rowA1, rowB1] (14/1000) (7/10) (7/10) = .ok resC2 := by
  have hfeas : instFeasible
      ((dropnaLP [rowA1, rowB1]).map (mkParams (7/10) (7/10))) (14/1000) := by
    constructor
    · intro p hp
      simp only [dropnaLP, rowA1, rowB1, rowComplete, List.filter, List.map, mkParams,
        List.mem_cons, List.mem_singleton, Option.isSome, List.not_mem_nil] at hp
      rcases hp with rfl | rfl | h
      · norm_num
      · norm_num
      · cases h
    · simp only [dropnaLP, rowA1, rowB1, rowComplete, List.filter, List.map, mkParams,
        Option.isSome]
      norm_num
  have hab : ("A" == "B") = false := by decide
  have hba : ("B" == "A") = false := by decide
  have haa : ("A" == "A") = true := by decide
  have hbb : ("B" == "B") = true := by decide
  simp only [otimizar_alocacao]
  rw [if_pos hfeas]
  norm_num [dropnaLP, rowA1, rowB1, rowComplete, List.filter, mkParams, greedyAlloc,
    sortByCoef, List.insertionSort, List.orderedInsert, coefObj, fill, allocValue,
    List.find?, mkAlocPre, pdMergeAlocacao, joinRow, round2, round4, ratTrunc,
    round_eq, resC2, hab, hba, haa, hbb]

/-- Claim C2, refuted as stated: an Optimal result whose reported
`orcamento_usado` strictly exceeds `orcamento_disponivel`. -/
theorem claim_C2_counterexample :
    otimizar_alocacao [rowA1, rowB1] (14/1000) (7/10) (7/10) = .ok resC2 ∧
    resC2.status = "Optimal" ∧
    ¬ (resC2.orcamento_usado ≤ 14/1000) := by
  refine ⟨eval_C2, rfl, ?_⟩
  norm_num [resC2]

/-- A state whose elasticity and investment cap allow the linear reduction
term to exceed its death count. -/
def rowC3 : Row :=
  { sigla := "C"
    estado := "Estado C"
    regiao := "Oeste"
    populacao := 10
    mortes_violentas := some 10
    orcamento_2022_milhoes := some 100
    elasticidade := some (3/10) }

/-- Result of `otimizar_alocacao [rowC3] 5000 0 5000`: the solved investment 5000
gives reduction 150 on 10 deaths, and `mortes_depois = -140`. -/
def resC3 : ResultadoOtimizacao :=
  { status := "Optimal"
    orcamento_usado := 5000
    reducao_crimes := 150
    reducao_percentual := 1500
    alocacao := [{ sigla := "C"
                   investimento_milhoes := 5000
                   mortes_antes := 10
                   mortes_depois := -140
                   reducao_mortes := 150
                   reducao_percentual := 1500
                   estado := some "Estado C"
                   regiao := some "Oeste"
                   populacao := some 10
                   orcamento_2022_milhoes := some 100
                   elasticidade := some (3/10) }]
    fo_valor := -150 }

lemma eval_C3 : otimizar_alocacao [rowC3] 5000 0 5000 = .ok resC3 := by
  have hfeas : instFeasible ((dropnaLP [rowC3]).map (mkParams 0 5000)) 5000 := by
    constructor
    · intro p hp
      simp only [dropnaLP, rowC3, rowComplete, List.filter, List.map, mkParams,
        List.mem_singleton, Option.isSome] at hp
      subst hp
      norm_num
    · simp only [dropnaLP, rowC3, rowComplete, List.filter, List.map, mkParams,
        Option.isSome]
      norm_num
  simp only [otimizar_alocacao]
  rw [if_pos hfeas]
  norm_num [dropnaLP, rowC3, rowComplete, List.filter, mkParams, greedyAlloc,
    sortByCoef, List.insertionSort, List.orderedInsert, coefObj, fill, allocValue,
    List.find?, mkAlocPre, pdMergeAlocacao, joinRow, round2, round4, ratTrunc,
    round_eq, resC3]

/-- Claim C3, refuted as stated: an Optimal allocation row of
`otimizar_alocacao` whose `mortes_depois` is `-140`, not the claimed
`max(0, deaths_before - reduction) = 0` and not non-negative. -/
theorem claim_C3_counterexample :
    otimizar_alocacao [rowC3] 5000 0 5000 = .ok resC3 ∧
    resC3.status = "Optimal" ∧
    resC3.alocacao.map (·.mortes_depois) = [-140] ∧
    ((-140 : ℤ) ≠ max 0 (-140) ∧ ¬ (0 ≤ (-140 : ℤ))) := by
  exact ⟨eval_C3, rfl, rfl, by decide⟩

/-- Result of `otimizar_multi_periodo [row0] [100] 0.1 0 30`. -/
def resM : ResultadoMultiPeriodo :=
  { status := "Optimal"
    n_periodos := 1
    orcamento_total_usado := 30
    reducao_total_crimes := 3
    alocacao_por_periodo := [(1, [{ sigla := "A"
                                    periodo := 1
                                    investimento := 30
                                    estoque_acumulado := 30
                                    crimes_base := 100
                                    crimes_apos := 97
                                    reducao := 3
                                    estado := "Estado A"
                                    regiao := "Norte" }])]
    reducao_por_periodo := [(1, 3)]
    trajetoria_crimes := [{ periodo := 1
                            orcamento_periodo := 100
                            investimento_total := 30
                            crimes_base := 100
                            crimes_apos := 97
                            reducao_acumulada := 3 }] }

lemma eval_multi_row0 :
    otimizar_multi_periodo [row0] [100] (1/10) 0 30 = .ok resM := by
  have hfeas : multiFeasible ((dropnaLP [row0]).map (mkParams 0 30)) [100] := by
    constructor
    · intro p hp
      simp only [dropnaLP, row0, rowComplete, List.filter, List.map, mkParams,
        List.mem_singleton, Option.isSome] at hp
      subst hp
      norm_num
    · intro b hb
      simp only [List.mem_singleton] at hb
      subst hb
      simp only [dropnaLP, row0, rowComplete, List.filter, List.map, mkParams,
        Option.isSome]
      norm_num
  simp only [otimizar_multi_periodo]
  rw [if_pos hfeas]
  norm_num [dropnaLP, row0, rowComplete, List.filter, mkParams, greedyAlloc,
    sortByCoef, List.insertionSort, List.orderedInsert, coefObj, fill, allocValue,
    List.find?, exceptMap, pdMergeMulti, joinMRow, mkMAlocPre, multiInvest,
    multiEstoque, multiReducao, multiReducaoPeriodo, estoque_acum,
    Finset.sum_range_succ, Finset.sum_range_zero, List.range_succ, List.range_zero,
    List.getD, round0, round2, round_eq, Except.map, resM]

/-- One-state table for the Monte Carlo runs. -/
def rowMC : Row :=
  { sigla := "A"
    estado := "Estado A"
    regiao := "Norte"
    populacao := 50
    mortes_violentas := some 100
    orcamento_2022_milhoes := some 10
    elasticidade := some (1/10) }

/-- Draw 0 of the run with base seed 0 (identical to a draw seeded 0). -/
def rowMCd0 : Row :=
  { sigla := "A"
    estado := "Estado A"
    regiao := "Norte"
    populacao := 50
    mortes_violentas := some 92
    orcamento_2022_milhoes := some 10
    elasticidade := some (2/25) }

/-- Draw 1 actually produced with base seed 0: the stream continues from
the single initial seeding. -/
def rowMCd1 : Row :=
  { sigla := "A"
    estado := "Estado A"
    regiao := "Norte"
    populacao := 50
    mortes_violentas := some 96
    orcamento_2022_milhoes := some 10
    elasticidade := some (11/125) }

/-- Draw 1 as the claim would have it: freshly seeded with `0 + 1`. -/
def rowMCd1c : Row :=
  { sigla := "A"
    estado := "Estado A"
    regiao := "Norte"
    populacao := 50
    mortes_violentas := some 94
    orcamento_2022_milhoes := some 10
    elasticidade := some (21/250) }

/-- Claim C6, refuted as stated: with base seed 0 the per-draw seed of
draw 1 is `None` (Python truthiness of `0`), and the table actually drawn
differs from the table `simular_parametros` produces under the claimed
per-draw seed `0 + 1`. -/
theorem claim_C6_counterexample :
    perDrawSeed (some 0) 1 = none ∧
    mcTrace [rowMC] (1/5) (1/10) (some 0) 0 2 (npSeed 0) =
      [[rowMCd0], [rowMCd1]] ∧
    (List.range 2).map (fun i =>
      (simular_parametros [rowMC] (1/5) (1/10) (some (0 + i)) 0).1) =
      [[rowMCd0], [rowMCd1c]] ∧
    ([[rowMCd1]] : List (List Row)) ≠ [[rowMCd1c]] := by
  refine ⟨rfl, ?_, ?_, ?_⟩
  · norm_num [mcTrace, simular_parametros, elastPass, mortesPass, perturbaElast,
      perturbaMortes, npNormal, npClip, stdNormalSample, npSeed, perDrawSeed,
      ratTrunc, rowMC, rowMCd0, rowMCd1]
  · norm_num [List.range_succ, List.range_zero, simular_parametros, elastPass,
      mortesPass, perturbaElast, perturbaMortes, npNormal, npClip,
      stdNormalSample, npSeed, perDrawSeed, ratTrunc, rowMC, rowMCd0, rowMCd1c]
  · have hne : ((96 : ℚ)) ≠ 94 := by norm_num
    intro h
    simp [rowMCd1, rowMCd1c, Row.mk.injEq, hne] at h

/-- Claim C7, refuted as stated: the death-count post-processing is
`max(1, int(sample))` with truncation toward zero, not rounding — at the
sample `95.8` the code yields `95` while the claimed rounding yields `96`. -/
theorem claim_C7_counterexample :
    (perturbaMortes 100 (7/100) 2).1 = 95 ∧
    ((max 1 (round (npNormal 100 (100 * (7/100)) 2).1) : ℤ) : ℚ) = 96 ∧
    (perturbaMortes 100 (7/100) 2).1 ≠
      ((max 1 (round (npNormal 100 (100 * (7/100)) 2).1) : ℤ) : ℚ) := by
  refine ⟨?_, ?_, ?_⟩ <;>
    norm_num [perturbaMortes, npNormal, stdNormalSample, ratTrunc, round_eq]

/-- Result of `comparar_estrategias [row0] 100 1`: with one period every shape
normalizes to the single budget `[100]`, and all four strategies solve
Optimal with total reduction 3. -/
def rows4 : List CompRow :=
  [{ estrategia := "Uniforme", orcamento_total := 100, n_periodos := 1,
     reducao_total := 3, reducao_primeiro_periodo := 3,
     reducao_ultimo_periodo := 3, distribuicao := [100] },
   { estrategia := "Frontloaded", orcamento_total := 100, n_periodos := 1,
     reducao_total := 3, reducao_primeiro_periodo := 3,
     reducao_ultimo_periodo := 3, distribuicao := [100] },
   { estrategia := "Backloaded", orcamento_total := 100, n_periodos := 1,
     reducao_total := 3, reducao_primeiro_periodo := 3,
     reducao_ultimo_periodo := 3, distribuicao := [100] },
   { estrategia := "Crescente_Linear", orcamento_total := 100, n_periodos := 1,
     reducao_total := 3, reducao_primeiro_periodo := 3,
     reducao_ultimo_periodo := 3, distribuicao := [100] }]

lemma eval_comparar : comparar_estrategias [row0] 100 1 = .ok rows4 := by
  have hr1 : List.range 1 = [0] := rfl
  have hstrat : estrategiasRaw 100 1 =
      [("Uniforme", [100]), ("Frontloaded", [150]), ("Backloaded", [100]),
       ("Crescente_Linear", [50])] := by
    simp only [estrategiasRaw, hr1, List.map_cons, List.map_nil, List.replicate]
    norm_num
  have hn1 : normalizeEstrategia 100 [100] = [100] := by
    norm_num [normalizeEstrategia]
  have hn2 : normalizeEstrategia 100 [150] = [100] := by
    norm_num [normalizeEstrategia]
  have hn3 : normalizeEstrategia 100 [50] = [100] := by
    norm_num [normalizeEstrategia]
  simp only [comparar_estrategias, hstrat]
  simp only [exceptMap, hn1, hn2, hn3, eval_multi_row0, Except.map]
  norm_num [resM, dictGet, List.find?, round0, rows4, List.filterMap]

/-- Claim C1, instantiated: the one-state table at budgets 10 < 20, both
Optimal, with reductions 1 ≤ 2. -/
theorem claim_C1_witness :
    otimizar_alocacao [row0] 10 0 50 = .ok res0 ∧
    otimizar_alocacao [row0] 20 0 50 = .ok res0b ∧
    res0.status = "Optimal" ∧ res0b.status = "Optimal" ∧
    res0.reducao_crimes ≤ res0b.reducao_crimes := by
  refine ⟨eval_row0_10, eval_row0_20, rfl, rfl, ?_⟩
  exact claim_C1_reducao_monotone [row0] 0 50 10 20
    (by
      intro row hrow
      simp [dropnaLP, row0, rowComplete, List.filter] at hrow
      subst hrow
      norm_num)
    (by simp [dropnaLP, row0, rowComplete, List.filter])
    (by norm_num) res0 res0b eval_row0_10 eval_row0_20 rfl rfl

/-- Claim C2 (amended), instantiated at the one-state table and budget 10:
exact spend `10 ≤ 10` and reported spend within the half-cent-per-state
slack. -/
theorem claim_C2_witness :
    ((greedyAlloc (paramsOf [row0] 0 50) 10).map (·.2)).sum ≤ 10 ∧
    res0.orcamento_usado ≤ 10 + ((dropnaLP [row0]).length : ℚ) * (1/200) :=
  claim_C2_budget_amended [row0] 10 0 50
    (by simp [dropnaLP, row0, rowComplete, List.filter]) res0 eval_row0_10 rfl

/-- Claim C3 (amended), instantiated: non-negative `mortes_depois` on the
well-behaved one-state table, and non-negative `crimes_apos` in the
multi-period run. -/
theorem claim_C3_witness :
    (∀ x ∈ res0.alocacao, 0 ≤ x.mortes_depois) ∧
    (∀ tm ∈ resM.alocacao_por_periodo, ∀ x ∈ tm.2, 0 ≤ x.crimes_apos) :=
  ⟨claim_C3_mortes_depois_amended.1 [row0] 10 0 50 res0
    (by
      intro row hrow
      simp [dropnaLP, row0, rowComplete, List.filter] at hrow
      subst hrow
      norm_num)
    (by simp [dropnaLP, row0, rowComplete, List.filter])
    (by
      intro row hrow
      simp [dropnaLP, row0, rowComplete, List.filter] at hrow
      subst hrow
      norm_num)
    eval_row0_10 rfl,
   claim_C3_mortes_depois_amended.2 [row0] [100] (1/10) 0 30 resM eval_multi_row0⟩

/-- Claim C4, instantiated: the infeasible bound configuration
`min_pct = 50 > max_pct = 10` yields the zeroed envelope from both
optimizers, and the strategy-comparison rows at `(100, 1)` all come from
Optimal solves. -/
theorem claim_C4_witness :
    otimizar_alocacao [row0] 100 50 10 =
      .ok { status := lpStatusStr ((dropnaLP [row0]).map (mkParams 50 10)) 100
            orcamento_usado := 0
            reducao_crimes := 0
            reducao_percentual := 0
            alocacao := []
            fo_valor := 0 } ∧
    otimizar_multi_periodo [row0] [100] (1/10) 50 10 =
      .ok { status := multiStatusStr ((dropnaLP [row0]).map (mkParams 50 10)) [100]
            n_periodos := 1
            orcamento_total_usado := 0
            reducao_total_crimes := 0
            alocacao_por_periodo := []
            reducao_por_periodo := []
            trajetoria_crimes := [] } ∧
    (∃ pair ∈ estrategiasRaw 100 1, ∃ res : ResultadoMultiPeriodo,
      otimizar_multi_periodo [row0] (normalizeEstrategia 100 pair.2)
        (1/10) 0 30 = .ok res ∧
      res.status = "Optimal" ∧
      ({ estrategia := "Uniforme", orcamento_total := 100, n_periodos := 1,
         reducao_total := 3, reducao_primeiro_periodo := 3,
         reducao_ultimo_periodo := 3, distribuicao := [100] } :
           CompRow).estrategia = pair.1 ∧
      ({ estrategia := "Uniforme", orcamento_total := 100, n_periodos := 1,
         reducao_total := 3, reducao_primeiro_periodo := 3,
         reducao_ultimo_periodo := 3, distribuicao := [100] } :
           CompRow).reducao_total = res.reducao_total_crimes) := by
  have hinf : ¬ instFeasible ((dropnaLP [row0]).map (mkParams 50 10)) 100 := by
    intro hcon
    have hmem : mkParams 50 10 row0 ∈ (dropnaLP [row0]).map (mkParams 50 10) := by
      simp [dropnaLP, row0, rowComplete, List.filter]
    have := hcon.1 (mkParams 50 10 row0) hmem
    norm_num [mkParams, row0] at this
  have hinfm : ¬ multiFeasible ((dropnaLP [row0]).map (mkParams 50 10)) [100] := by
    intro hcon
    have hmem : mkParams 50 10 row0 ∈ (dropnaLP [row0]).map (mkParams 50 10) := by
      simp [dropnaLP, row0, rowComplete, List.filter]
    have := hcon.1 (mkParams 50 10 row0) hmem
    norm_num [mkParams, row0] at this
  refine ⟨?_, ?_, ?_⟩
  · exact claim_C4_failure_semantics.1 [row0] 100 50 10
      (by simp [lpStatusStr, if_neg hinf])
  · exact claim_C4_failure_semantics.2.1 [row0] [100] (1/10) 50 10
      (by simp [multiStatusStr, if_neg hinfm])
  · exact claim_C4_failure_semantics.2.2 [row0] 100 1 rows4 eval_comparar
      { estrategia := "Uniforme", orcamento_total := 100, n_periodos := 1,
        reducao_total := 3, reducao_primeiro_periodo := 3,
        reducao_ultimo_periodo := 3, distribuicao := [100] }
      (by simp [rows4])

/-- Claim C6 (amended), instantiated at base seed 3 with two different
prior stream states. -/
theorem claim_C6_witness :
    executar_monte_carlo [rowMC] 50 2 (1/5) (1/10) (some 3) 5 =
      executar_monte_carlo [rowMC] 50 2 (1/5) (1/10) (some 3) 11 ∧
    mcTrace [rowMC] (1/5) (1/10) (some 3) 0 2 (npSeed 3) =
      (List.range 2).map (fun i =>
        (simular_parametros [rowMC] (1/5) (1/10) (some (3 + i)) 0).1) :=
  ⟨(claim_C6_seed_amended [rowMC] 50 2 (1/5) (1/10) 3 5 11).1,
   (claim_C6_seed_amended [rowMC] 50 2 (1/5) (1/10) 3 5 11).2 (by norm_num)⟩

/-- Claim C8, instantiated at the one-state table and budget 1000: both
shifted solves reduce 5, so the shadow price is 0. -/
theorem claim_C8_witness :
    calcular_shadow_prices [row0] 1000 100 =
      .ok (((res50.reducao_crimes : ℚ) - (res50.reducao_crimes : ℚ)) / (2 * 100)) :=
  claim_C8_shadow_price [row0] 1000 res50 res50 res50
    eval_row0_1000 eval_row0_1100 eval_row0_900

/-- Claim C9, instantiated with `inv s = s` and depreciation 1/2, 0, 1. -/
theorem claim_C9_witness :
    estoque_acum (fun s => (s : ℚ)) (1/2) 1 = ((1 : ℕ) : ℚ) ∧
    estoque_acum (fun s => (s : ℚ)) (1/2) 3 =
      ((3 : ℕ) : ℚ) + (1 - 1/2) * estoque_acum (fun s => (s : ℚ)) (1/2) (3 - 1) ∧
    estoque_acum (fun s => (s : ℚ)) 0 3 = ∑ s ∈ Finset.range 3, ((s + 1 : ℕ) : ℚ) ∧
    estoque_acum (fun s => (s : ℚ)) 1 3 = ((3 : ℕ) : ℚ) :=
  ⟨claim_C9_estoque_recursion.1 (fun s => (s : ℚ)) (1/2),
   claim_C9_estoque_recursion.2.1 (fun s => (s : ℚ)) (1/2) 3 (by norm_num),
   claim_C9_estoque_recursion.2.2.1 (fun s => (s : ℚ)) 3,
   claim_C9_estoque_recursion.2.2.2 (fun s => (s : ℚ)) 3 (by norm_num)⟩
